import Mathlib

/-!
Verification of the ChatGPT OAuth provider adapter
(`ai-sdk-provider-chatgpt-oauth`): a shallow embedding of the request
assembler, the tool identity mapper, the message translators, the
finish-reason normalizers and the streaming response reducer, together
with theorems settling the testable properties of the specification.

Host-platform primitives that are not code of this repository
(`JSON.parse`, `JSON.stringify`, the zod validators, `Date.now`,
`TextDecoder`) are abstracted: serialization results appear as plain
string fields, parsing/validation appear as function parameters of the
reducers, the clock appears as a counter threaded through the reducer
state, and the incremental UTF-8 decoder is modelled byte-exactly for
well-formed input.
-/

namespace ChatGPTOAuth

/-! ## JavaScript value helpers -/

/-- Truthiness of a JS string-or-undefined value: `undefined`, `null` and
the empty string are falsy. -/
def strTruthy : Option String → Bool
  | some s => s ≠ ""
  | none => false

/-- JS `a || b` where `a` is a string-or-undefined value: the fallback `b`
is used when `a` is absent or empty. -/
def jsOrStr (a : Option String) (b : String) : String :=
  match a with
  | some s => if s = "" then b else s
  | none => b

/-- JS `String.prototype.includes`. -/
def jsIncludes (s pat : String) : Bool :=
  decide (pat.data <:+: s.data)

/-- JS `String.prototype.indexOf` for a single character, as an optional
index (`none` models `-1`). -/
def jsIndexOfChar (s : String) (c : Char) : Option Nat :=
  s.data.findIdx? (· = c)

/-- JS `String.prototype.lastIndexOf` for a single character, as an
optional index (`none` models `-1`). -/
def jsLastIndexOfChar (s : String) (c : Char) : Option Nat :=
  match s.data.reverse.findIdx? (· = c) with
  | some i => some (s.data.length - 1 - i)
  | none => none

/-- JS `String.prototype.slice(start, stop)` for in-range ascending
indices; an empty string results when `stop ≤ start`, as in JS. -/
def jsSlice (s : String) (start stop : Nat) : String :=
  ⟨(s.data.drop start).take (stop - start)⟩

/-! ## Finish-reason normalizers (`map-chatgpt-finish-reason`)

The repository carries two schema-version variants of
`mapChatGPTFinishReason`; both are embedded.  The v1 variant is the one
imported by the v1 `ChatGPTOAuthLanguageModel`. -/

/-- Caller-facing finish-reason enumeration (union of the values used by
the two variants). -/
inductive FinishReason where
  | stop
  | length
  | toolCalls
  | contentFilter
  | unknown
  deriving DecidableEq, Repr

/-- Variant of `mapChatGPTFinishReason` returning
`LanguageModelV1FinishReason`: `stop`/`completed` → stop,
`length`/`max_tokens` → length, `content_filter` → content-filter, and
everything else (including null/undefined) → unknown.  Translated from
the JS `switch`, whose fall-through cases are sequential equality tests. -/
def mapChatGPTFinishReason_v1 (finishReason : Option String) : FinishReason :=
  if finishReason = some "stop" ∨ finishReason = some "completed" then .stop
  else if finishReason = some "length" ∨ finishReason = some "max_tokens" then .length
  else if finishReason = some "content_filter" then .contentFilter
  else .unknown

/-- Variant of `mapChatGPTFinishReason` returning
`LanguageModelV2FinishReason`: adds the `tool_calls`/`function_call`
cases and defaults to stop instead of unknown. -/
def mapChatGPTFinishReason_v2 (finishReason : Option String) : FinishReason :=
  if finishReason = some "stop" ∨ finishReason = some "completed" then .stop
  else if finishReason = some "length" ∨ finishReason = some "max_tokens" then .length
  else if finishReason = some "tool_calls" ∨ finishReason = some "function_call" then .toolCalls
  else if finishReason = some "content_filter" then .contentFilter
  else .stop

/-- The lookup table stated by the specification for the finish-reason
normalizer, as explicit data. -/
def finishReasonTable : List (String × FinishReason) :=
  [("stop", .stop), ("completed", .stop),
   ("length", .length), ("max_tokens", .length),
   ("tool_calls", .toolCalls), ("function_call", .toolCalls),
   ("content_filter", .contentFilter)]

/-- The specification table with the `tool_calls`/`function_call` rows
removed; this is the table the v1 variant actually implements. -/
def finishReasonTable_v1 : List (String × FinishReason) :=
  [("stop", .stop), ("completed", .stop),
   ("length", .length), ("max_tokens", .length),
   ("content_filter", .contentFilter)]

/-- Pure total lookup on a finish-reason table with a fixed default for
misses and for null/undefined input. -/
def finishReasonLookup (table : List (String × FinishReason))
    (default : FinishReason) (s : Option String) : FinishReason :=
  match s with
  | some str => (((table.filter (fun p => p.1 = str)).head?).map Prod.snd).getD default
  | none => default

/-! ## Tool identity mapper (`chatgpt-oauth-prepare-tools`) -/

/-- Predefined backend tool schema (Responses API format).  The static
`description` text and JSON `parameters` schema of the two constants are
fixed literal data that no claim references; only the discriminant
fields are carried. -/
structure ChatGPTTool where
  type : String
  name : String
  strict : Bool
  deriving DecidableEq, Repr

/-- The predefined `shell` backend tool. -/
def CODEX_SHELL_TOOL : ChatGPTTool :=
  { type := "function", name := "shell", strict := false }

/-- The predefined `update_plan` backend tool. -/
def CODEX_UPDATE_PLAN_TOOL : ChatGPTTool :=
  { type := "function", name := "update_plan", strict := false }

/-- Caller-declared tool: only the `type` discriminant and `name` are
inspected by `prepareChatGPTTools`. -/
structure CallerTool where
  type : String
  name : String
  deriving DecidableEq, Repr

/-- Caller-requested tool choice (`LanguageModelV2ToolChoice`). -/
inductive CallerToolChoice where
  | auto
  | none
  | required
  | tool (toolName : String)
  deriving DecidableEq, Repr

/-- Backend tool choice (`ChatGPTToolChoice`). -/
inductive ToolChoice where
  | none
  | auto
  | required
  deriving DecidableEq, Repr

/-- Warnings produced by the converters and the tool mapper. -/
inductive Warning where
  | other (message : String)
  | unsupportedTool (toolName : String)
  | unsupportedSetting (setting : String)
  deriving DecidableEq, Repr

/-- Condition of the command-execution family rule:
`name === "bash" || name === "shell" || name.includes("execute") ||
name.includes("command")`. -/
def matchesShellTool (name : String) : Bool :=
  name == "bash" || name == "shell" ||
    jsIncludes name "execute" || jsIncludes name "command"

/-- Condition of the planning family rule:
`name === "TodoWrite" || name === "update_plan" ||
name.includes("plan") || name.includes("todo")`. -/
def matchesPlanTool (name : String) : Bool :=
  name == "TodoWrite" || name == "update_plan" ||
    jsIncludes name "plan" || jsIncludes name "todo"

/-- JS `Map<string,string>` modelled by its `set` history; `get` answers
with the value of the last `set` for the key. -/
def mapSet (m : List (String × String)) (k v : String) :
    List (String × String) :=
  m ++ [(k, v)]

/-- Lookup in the `set` history model of a JS `Map<string,string>`. -/
def mapGet (m : List (String × String)) (k : String) : Option String :=
  ((m.filter (fun p => p.1 = k)).getLast?).map Prod.snd

/-- Loop state of `prepareChatGPTTools`. -/
structure PrepareState where
  hasShellTool : Bool
  hasUpdatePlanTool : Bool
  tools : List ChatGPTTool
  toolMapping : List (String × String)
  warnings : List Warning
  deriving Repr

/-- Body of the `for (const tool of tools)` loop of
`prepareChatGPTTools`. -/
def prepareStep (st : PrepareState) (tool : CallerTool) : PrepareState :=
  if tool.type == "function" then
    if matchesShellTool tool.name then
      let st1 :=
        if st.hasShellTool then st
        else { st with tools := st.tools ++ [CODEX_SHELL_TOOL], hasShellTool := true }
      { st1 with toolMapping := mapSet st1.toolMapping "shell" tool.name }
    else if matchesPlanTool tool.name then
      let st1 :=
        if st.hasUpdatePlanTool then st
        else { st with tools := st.tools ++ [CODEX_UPDATE_PLAN_TOOL], hasUpdatePlanTool := true }
      { st1 with toolMapping := mapSet st1.toolMapping "update_plan" tool.name }
    else
      { st with warnings := st.warnings ++ [Warning.unsupportedTool tool.name] }
  else
    { st with warnings :=
        st.warnings ++ [Warning.other ("Tool type " ++ tool.type ++ " is not supported")] }

/-- Initial loop state of `prepareChatGPTTools`. -/
def initPrepareState : PrepareState :=
  { hasShellTool := false, hasUpdatePlanTool := false,
    tools := [], toolMapping := [], warnings := [] }

/-- Result of `prepareChatGPTTools`. -/
structure PrepareResult where
  tools : List ChatGPTTool
  toolChoice : Option ToolChoice
  warnings : List Warning
  toolMapping : List (String × String)
  deriving Repr

/-- Tool-choice resolution of `prepareChatGPTTools`: unset with at least
one mapped tool defaults to auto; `auto`/`none`/`required` pass through;
a specific-tool request downgrades to auto (with a warning added by the
caller of this function). -/
def resolveChatGPTToolChoice (toolChoice : Option CallerToolChoice)
    (numTools : Nat) : Option ToolChoice :=
  match toolChoice with
  | Option.none => if numTools > 0 then some .auto else Option.none
  | some .auto => some .auto
  | some .none => some .none
  | some .required => some .required
  | some (.tool _) => some .auto

/-- `prepareChatGPTTools`: maps caller tool declarations onto the fixed
two-tool backend vocabulary, recording the identity map and warnings,
then resolves the tool choice. -/
def prepareChatGPTTools (tools : Option (List CallerTool))
    (toolChoice : Option CallerToolChoice) : PrepareResult :=
  let st :=
    match tools with
    | some ts => if ts.length > 0 then ts.foldl prepareStep initPrepareState else initPrepareState
    | Option.none => initPrepareState
  let choiceWarnings :=
    match toolChoice with
    | some (.tool _) => [Warning.unsupportedSetting "toolChoice"]
    | _ => []
  { tools := st.tools,
    toolChoice := resolveChatGPTToolChoice toolChoice st.tools.length,
    warnings := st.warnings ++ choiceWarnings,
    toolMapping := st.toolMapping }

/-- Reverse translation used by both reducer paths:
`toolMapping.get(toolCall.name) || toolCall.name`. -/
def reportedToolName (m : List (String × String)) (name : String) : String :=
  jsOrStr (mapGet m name) name

/-! ## Message translators (`convert-to-chatgpt-messages`)

The repository carries two schema-version variants of
`convertToChatGPTMessages`; both are embedded.  The v1 variant is the
one called by the v1 `ChatGPTOAuthLanguageModel.getArgs`. -/

/-- One tool call attached to a backend assistant message; `arguments`
holds the JSON string produced for the call. -/
structure ChatGPTMsgToolCall where
  id : String
  name : String
  arguments : String
  deriving DecidableEq, Repr

/-- Backend message shape (`ChatGPTMessage`). -/
structure ChatGPTMessage where
  role : String
  content : Option String
  name : Option String := none
  tool_calls : Option (List ChatGPTMsgToolCall) := none
  tool_call_id : Option String := none
  deriving DecidableEq, Repr

/-- Image value of a v1 user content part: a plain string, an object
with a string `url` field, or anything else. -/
inductive V1ImageValue where
  | str (s : String)
  | urlObj (url : String)
  | other
  deriving DecidableEq, Repr

/-- Content part of a v1 user message. -/
inductive V1UserPart where
  | text (text : String)
  | image (image : V1ImageValue)
  | unknown (type : String)
  deriving DecidableEq, Repr

/-- Content part of a v1 assistant message.  For a tool-call part,
`argumentsStr` is `some s` when the JS `part.args` value is a string,
and otherwise `serializedArgs` carries the host serialization
`JSON.stringify(part.input ?? part.args ?? {})`. -/
inductive V1AssistantPart where
  | text (text : String)
  | toolCall (toolCallId : String) (toolName : String)
      (argumentsStr : Option String) (serializedArgs : String)
  | otherPart
  deriving DecidableEq, Repr

/-- Output of a v1 tool response: a typed text/error-text value, a plain
string, or any other value carried as its host JSON serialization
(`JSON.stringify(output?.value ?? output ?? {})`). -/
inductive V1ToolOutput where
  | text (value : String)
  | errorText (value : String)
  | str (s : String)
  | otherJson (serialized : String)
  deriving DecidableEq, Repr

/-- One tool response inside a v1 tool message. -/
structure V1ToolResponse where
  toolCallId : String
  output : V1ToolOutput
  deriving DecidableEq, Repr

/-- A message of the v1 prompt model (`LanguageModelV1Prompt`), split by
role and by the string-versus-parts shape of the content. -/
inductive V1PromptMessage where
  | system (content : String)
  | userStr (content : String)
  | userParts (parts : List V1UserPart)
  | assistantStr (content : String)
  | assistantParts (parts : List V1AssistantPart)
  | tool (responses : List V1ToolResponse)
  | unknownRole (role : String)
  deriving DecidableEq, Repr

/-- Flattening of one v1 user content part: the rendered string pieces
and the warnings it contributes. -/
def v1UserPartRender (part : V1UserPart) : List String × List Warning :=
  match part with
  | .text t => ([t], [])
  | .image (.str s) => (["[Image: " ++ s ++ "]"], [])
  | .image (.urlObj url) => (["[Image: " ++ url ++ "]"], [])
  | .image .other =>
      (["[Image]"], [Warning.other "Unsupported image content; converted to placeholder."])
  | .unknown ty =>
      ([], [Warning.other ("Unsupported content part type: " ++ ty)])

/-- Arguments string of a v1 assistant tool-call part:
`typeof part.args === "string" ? part.args : JSON.stringify(...)`. -/
def v1ToolCallArguments (argumentsStr : Option String) (serializedArgs : String) : String :=
  match argumentsStr with
  | some s => s
  | none => serializedArgs

/-- Conversion of one v1 prompt message into backend messages plus
warnings (the body of the `for (const message of prompt)` loop). -/
def v1MessageStep (systemMessageMode : String) (message : V1PromptMessage) :
    List ChatGPTMessage × List Warning :=
  match message with
  | .system content =>
      if systemMessageMode == "user" then
        ([{ role := "user", content := some content }],
         [Warning.other "System messages are converted to user messages"])
      else
        ([], [])
  | .userStr content =>
      ([{ role := "user", content := some content }], [])
  | .userParts parts =>
      let rendered := parts.map v1UserPartRender
      let pieces := (rendered.map Prod.fst).flatten
      let ws := (rendered.map Prod.snd).flatten
      ([{ role := "user", content := some (String.intercalate "\n" pieces) }], ws)
  | .assistantStr content =>
      ([{ role := "assistant", content := some content }], [])
  | .assistantParts parts =>
      let textParts := parts.filterMap (fun p =>
        match p with
        | .text t => some t
        | _ => none)
      let content := if textParts.length > 0 then some (String.join textParts) else none
      let toolCalls := parts.filterMap (fun p =>
        match p with
        | .toolCall id name args ser =>
            some { id := id, name := name, arguments := v1ToolCallArguments args ser : ChatGPTMsgToolCall }
        | _ => none)
      ([{ role := "assistant", content := content,
          tool_calls := if toolCalls.length > 0 then some toolCalls else none }], [])
  | .tool responses =>
      (responses.map (fun r =>
        let content :=
          match r.output with
          | .text v => v
          | .errorText v => v
          | .str s => s
          | .otherJson ser => ser
        { role := "tool", content := some content, tool_call_id := some r.toolCallId }), [])
  | .unknownRole role =>
      ([], [Warning.other ("Unsupported message role: " ++ role)])

/-- The v1 `convertToChatGPTMessages`: folds `v1MessageStep` over the
prompt, accumulating messages and warnings in order. -/
def convertToChatGPTMessages_v1 (prompt : List V1PromptMessage)
    (systemMessageMode : String) : List ChatGPTMessage × List Warning :=
  let results := prompt.map (v1MessageStep systemMessageMode)
  ((results.map Prod.fst).flatten, (results.map Prod.snd).flatten)

/-- Data of a v2 file content part: a URL object, a base64 string, or
raw bytes. -/
inductive V2FileData where
  | url (href : String)
  | str (s : String)
  | bytes (data : List Nat)
  deriving DecidableEq, Repr

/-- Content part of a v2 user message. -/
inductive V2UserPart where
  | text (text : String)
  | file (mediaType : String) (data : V2FileData) (filename : Option String)
  | unknown (type : String)
  deriving DecidableEq, Repr

/-- Content part of a v2 assistant message; `serializedInput` is the
host serialization `JSON.stringify(part.input)` of a tool-call input. -/
inductive V2AssistantPart where
  | text (text : String)
  | toolCall (toolCallId : String) (toolName : String) (serializedInput : String)
  | otherPart
  deriving DecidableEq, Repr

/-- Output of a v2 tool response: text/error-text carry the value
directly, anything else is carried as its host JSON serialization. -/
inductive V2ToolOutput where
  | text (value : String)
  | errorText (value : String)
  | otherJson (serialized : String)
  deriving DecidableEq, Repr

/-- One tool response inside a v2 tool message. -/
structure V2ToolResponse where
  toolCallId : String
  output : V2ToolOutput
  deriving DecidableEq, Repr

/-- A message of the v2 prompt model (`LanguageModelV2Prompt`). -/
inductive V2PromptMessage where
  | system (content : String)
  | user (parts : List V2UserPart)
  | assistant (parts : List V2AssistantPart)
  | tool (responses : List V2ToolResponse)
  | unknownRole (role : String)
  deriving DecidableEq, Repr

/-- Alphabet of standard base64. -/
def base64Chars : List Char :=
  "ABCDEFGHIJKLMNOPQRSTUVWXYZabcdefghijklmnopqrstuvwxyz0123456789+/".data

/-- Standard base64 of a byte list, modelling
`btoa(String.fromCharCode(...bytes))` as used by
`convertUint8ArrayToBase64`. -/
def base64Encode : List Nat → String
  | [] => ""
  | [a] =>
      let b1 := base64Chars.getD (a / 4 % 64) 'A'
      let b2 := base64Chars.getD (a % 4 * 16) 'A'
      ⟨[b1, b2, '=', '=']⟩
  | [a, b] =>
      let b1 := base64Chars.getD (a / 4 % 64) 'A'
      let b2 := base64Chars.getD (a % 4 * 16 + b / 16) 'A'
      let b3 := base64Chars.getD (b % 16 * 4) 'A'
      ⟨[b1, b2, b3, '=']⟩
  | a :: b :: c :: rest =>
      let b1 := base64Chars.getD (a / 4 % 64) 'A'
      let b2 := base64Chars.getD (a % 4 * 16 + b / 16) 'A'
      let b3 := base64Chars.getD (b % 16 * 4 + c / 64) 'A'
      let b4 := base64Chars.getD (c % 64) 'A'
      (⟨[b1, b2, b3, b4]⟩ : String) ++ base64Encode rest

/-- Flattening of one v2 user content part. -/
def v2UserPartRender (part : V2UserPart) : List String × List Warning :=
  match part with
  | .text t => ([t], [])
  | .file mediaType data _filename =>
      if mediaType.startsWith "image/" then
        match data with
        | .url href => (["[Image: " ++ href ++ "]"], [])
        | .str s => (["[Image: data:" ++ mediaType ++ ";base64," ++ s ++ "]"], [])
        | .bytes bs => (["[Image: data:" ++ mediaType ++ ";base64," ++ base64Encode bs ++ "]"], [])
      else
        match part with
        | .file _ _ (some fname) => (["[File: " ++ fname ++ "]"], [])
        | _ => (["[File: unnamed]"], [])
  | .unknown ty =>
      ([], [Warning.other ("Unsupported content part type: " ++ ty)])

/-- Conversion of one v2 prompt message into backend messages plus
warnings. -/
def v2MessageStep (systemMessageMode : String) (message : V2PromptMessage) :
    List ChatGPTMessage × List Warning :=
  match message with
  | .system content =>
      if systemMessageMode == "user" then
        ([{ role := "user", content := some content, name := some "system" }],
         [Warning.other "System messages are converted to user messages with name=\"system\""])
      else
        ([{ role := "user", content := some content }], [])
  | .user parts =>
      match parts with
      | [V2UserPart.text t] =>
          ([{ role := "user", content := some t }], [])
      | _ =>
          let rendered := parts.map v2UserPartRender
          let pieces := (rendered.map Prod.fst).flatten
          let ws := (rendered.map Prod.snd).flatten
          ([{ role := "user", content := some (String.intercalate "\n" pieces) }], ws)
  | .assistant parts =>
      let textParts := parts.filterMap (fun p =>
        match p with
        | .text t => some t
        | _ => none)
      let content :=
        if parts.length > 0 ∧ textParts.length > 0 then some (String.join textParts) else none
      let toolCalls := parts.filterMap (fun p =>
        match p with
        | .toolCall id name ser =>
            some { id := id, name := name, arguments := ser : ChatGPTMsgToolCall }
        | _ => none)
      ([{ role := "assistant", content := content,
          tool_calls :=
            if parts.any (fun p => p matches .toolCall ..) ∧ toolCalls.length > 0
            then some toolCalls else none }], [])
  | .tool responses =>
      (responses.map (fun r =>
        let content :=
          match r.output with
          | .text v => v
          | .errorText v => v
          | .otherJson ser => ser
        { role := "tool", content := some content, tool_call_id := some r.toolCallId }), [])
  | .unknownRole role =>
      ([], [Warning.other ("Unsupported message role: " ++ role)])

/-- The v2 `convertToChatGPTMessages`. -/
def convertToChatGPTMessages_v2 (prompt : List V2PromptMessage)
    (systemMessageMode : String) : List ChatGPTMessage × List Warning :=
  let results := prompt.map (v2MessageStep systemMessageMode)
  ((results.map Prod.fst).flatten, (results.map Prod.snd).flatten)

/-! ## Request assembly (`ChatGPTOAuthLanguageModel.getArgs`)

Only the request fields referenced by the claims are carried
(`input`, `tools`, `tool_choice` and the fixed flags); the static
`model`/`instructions`/`reasoning`/`include` fields and their warnings
are independent of message and tool processing. -/

/-- Call mode of a v1 language-model call (`options.mode`), defaulted to
regular when absent. -/
inductive CallMode where
  | regular (tools : Option (List CallerTool))
  | objectJson
  | objectTool
  deriving Repr

/-- Message content unshifted in object-json mode. -/
def jsonModePromptText : String :=
  String.intercalate "\n"
    ["CRITICAL: Output MUST be valid JSON only.",
     "- Do not include markdown, code fences, or commentary.",
     "- Do not include fields not requested by the schema.",
     "- The first character must be \x7b or [ and the last must be \x7d or ]."]

/-- Assembled backend request (the claim-relevant fields of
`ChatGPTRequest`). -/
structure ChatGPTRequest where
  input : List ChatGPTMessage
  tools : List ChatGPTTool
  tool_choice : ToolChoice
  parallel_tool_calls : Bool
  store : Bool
  stream : Bool
  deriving Repr

/-- Result of `getArgs`. -/
structure GetArgsResult where
  args : ChatGPTRequest
  warnings : List Warning
  toolMapping : List (String × String)
  deriving Repr

/-- Filter predicate of the message-warning sanitizer in `getArgs`. -/
def sanitizeMessageWarning (w : Warning) : Bool :=
  match w with
  | .other m => if m = "" then true else m != "System messages are converted to user messages"
  | _ => true

/-- The `getArgs` pipeline: converts messages (always in `user`
system-message mode), sanitizes their warnings, prepares tools (no
caller tool choice is forwarded), computes `hasToolMessages`, unshifts
the JSON prompt in object-json mode, and assembles the request with
`tool_choice: tools && tools.length > 0 ? (hasToolMessages ? "auto" :
"required") : "none"`. -/
def getArgs (prompt : List V1PromptMessage) (mode : CallMode) : GetArgsResult :=
  let conv := convertToChatGPTMessages_v1 prompt "user"
  let sanitized := conv.2.filter sanitizeMessageWarning
  let chatgptMessages := conv.1
  let modeTools := match mode with | .regular ts => ts | _ => none
  let prep := prepareChatGPTTools modeTools none
  let hasToolMessages := chatgptMessages.any (fun m => m.role == "tool")
  let inputMessages :=
    if mode matches .objectJson then
      { role := "user", content := some jsonModePromptText } :: chatgptMessages
    else chatgptMessages
  { args :=
      { input := inputMessages,
        tools := prep.tools,
        tool_choice :=
          if prep.tools.length > 0 then
            (if hasToolMessages then .auto else .required)
          else .none,
        parallel_tool_calls := false,
        store := false,
        stream := true },
    warnings := sanitized ++ prep.warnings,
    toolMapping := prep.toolMapping }

/-! ## SSE events and the streaming response reducer

The reducer switches of `doGenerate` and `doStream` are embedded as
step functions over parsed events.  `JSON.parse` of a frame payload is
a host primitive and appears as a parameter where the byte-level
pipeline is built; `validateToolResponse` (zod validation plus
serialization of the validated value) appears as the `validate`
parameter, returning the serialized validated arguments or an error
message; `Date.now()` used for fallback call ids appears as a counter
in the reducer state. -/

/-- The `item` object of an output-item event. -/
structure SSEItem where
  type : String
  id : Option String
  name : Option String
  arguments : Option String
  deriving DecidableEq, Repr

/-- The nested `usage` object of a completed event. -/
structure SSEUsage where
  input_tokens : Option Nat
  output_tokens : Option Nat
  total_tokens : Option Nat
  deriving DecidableEq, Repr

/-- Parsed SSE event, discriminated by the `type` field; `respUsage`
flattens `event.response?.usage`. -/
inductive SSEEvent where
  | outputItemAdded (item : Option SSEItem)
  | functionCallArgumentsDelta (item_id : Option String) (delta : Option String)
  | outputItemDone (item : Option SSEItem)
  | outputTextDelta (delta : Option String)
  | completed (status : Option String) (respUsage : Option SSEUsage)
  | otherType (type : String)
  deriving DecidableEq, Repr

/-- Entry of the `activeToolCalls` map. -/
structure ActiveToolCall where
  name : String
  args : String
  deriving DecidableEq, Repr

/-- JS `Map.has` on the pending-tool-call table. -/
def tmHas (m : List (String × ActiveToolCall)) (k : String) : Bool :=
  m.any (fun p => p.1 == k)

/-- JS `Map.get` on the pending-tool-call table. -/
def tmGet (m : List (String × ActiveToolCall)) (k : String) : Option ActiveToolCall :=
  (m.find? (fun p => p.1 == k)).map Prod.snd

/-- JS `Map.set` on the pending-tool-call table: replaces in place for
an existing key, appends for a new key. -/
def tmSetNew (m : List (String × ActiveToolCall)) (k : String) (v : ActiveToolCall) :
    List (String × ActiveToolCall) :=
  if tmHas m k then m.map (fun p => if p.1 == k then (p.1, v) else p) else m ++ [(k, v)]

/-- In-place `active.args += delta` mutation of a table entry. -/
def tmAppendArgs (m : List (String × ActiveToolCall)) (k : String) (delta : String) :
    List (String × ActiveToolCall) :=
  m.map (fun p => if p.1 == k then (p.1, { p.2 with args := p.2.args ++ delta }) else p)

/-- JS `Map.delete` on the pending-tool-call table. -/
def tmDelete (m : List (String × ActiveToolCall)) (k : String) :
    List (String × ActiveToolCall) :=
  m.filter (fun p => p.1 != k)

/-- Caller-facing stream part emitted by `doStream`. -/
inductive StreamPart where
  | textDelta (textDelta : String)
  | toolCall (toolCallId : String) (toolName : String) (args : String)
  | finish (finishReason : FinishReason) (promptTokens : Nat) (completionTokens : Nat)
  deriving DecidableEq, Repr

/-- Reducer configuration shared by both paths: the object-json flag of
the call mode, the identity map of the request, and the abstracted
`validateToolResponse`. -/
structure ReducerConfig where
  objectJsonMode : Bool
  toolMapping : List (String × String)
  validate : String → String → Except String String

/-- Mutable state of the `doStream` reducer. -/
structure StreamState where
  activeToolCalls : List (String × ActiveToolCall)
  accumulatedText : String
  clock : Nat
  deriving DecidableEq, Repr

/-- Initial `doStream` reducer state. -/
def initStreamState : StreamState :=
  { activeToolCalls := [], accumulatedText := "", clock := 0 }

/-- `event.response?.usage?.input_tokens || 0`. -/
def usageInputTokens (respUsage : Option SSEUsage) : Nat :=
  match respUsage with
  | some u => u.input_tokens.getD 0
  | none => 0

/-- `event.response?.usage?.output_tokens || 0`. -/
def usageOutputTokens (respUsage : Option SSEUsage) : Nat :=
  match respUsage with
  | some u => u.output_tokens.getD 0
  | none => 0

/-- Brace narrowing of the `doStream` object-json flush: slice from the
first opening brace to the last closing brace when both are found,
without any JSON-validity check. -/
def extractBraces (text : String) : String :=
  match jsIndexOfChar text '\x7b', jsLastIndexOfChar text '\x7d' with
  | some firstBrace, some lastBrace => jsSlice text firstBrace (lastBrace + 1)
  | _, _ => text

/-- Brace narrowing of the `doGenerate` object-json epilogue: slice
between the braces and keep it only when `JSON.parse` (abstracted as
`jsonOk`) succeeds on the slice; a parse failure is swallowed and the
raw text kept. -/
def genNarrowJson (jsonOk : String → Bool) (text : String) : String :=
  match jsIndexOfChar text '\x7b', jsLastIndexOfChar text '\x7d' with
  | some firstBrace, some lastBrace =>
      let extracted := jsSlice text firstBrace (lastBrace + 1)
      if jsonOk extracted then extracted else text
  | _, _ => text

/-- One event of the `doStream` switch: next state and emitted parts,
in emission order. -/
def streamEvent (cfg : ReducerConfig) (st : StreamState) (e : SSEEvent) :
    StreamState × List StreamPart :=
  match e with
  | .outputItemAdded item =>
      match item with
      | some it =>
          if it.type == "function_call" then
            let id := jsOrStr it.id ("call_" ++ toString st.clock)
            ({ st with
                activeToolCalls := tmSetNew st.activeToolCalls id { name := "pending", args := "" },
                clock := st.clock + 1 }, [])
          else (st, [])
      | none => (st, [])
  | .functionCallArgumentsDelta item_id delta =>
      match item_id, delta with
      | some iid, some d =>
          if iid != "" && d != "" && tmHas st.activeToolCalls iid then
            ({ st with activeToolCalls := tmAppendArgs st.activeToolCalls iid d }, [])
          else (st, [])
      | _, _ => (st, [])
  | .outputItemDone item =>
      match item with
      | some it =>
          if it.type == "function_call" && strTruthy it.name then
            match it.id with
            | some toolCallId =>
                if tmHas st.activeToolCalls toolCallId then
                  let toolCall := (tmGet st.activeToolCalls toolCallId).getD
                    { name := "pending", args := "" }
                  let finalName := it.name.getD ""
                  let finalArgs :=
                    if toolCall.args != "" then toolCall.args else jsOrStr it.arguments ""
                  let originalName := reportedToolName cfg.toolMapping finalName
                  let emittedArgs :=
                    match cfg.validate finalName finalArgs with
                    | .ok validated => validated
                    | .error _ => finalArgs
                  ({ st with activeToolCalls := tmDelete st.activeToolCalls toolCallId },
                   [StreamPart.toolCall toolCallId originalName emittedArgs])
                else (st, [])
            | none => (st, [])
          else (st, [])
      | none => (st, [])
  | .outputTextDelta delta =>
      match delta with
      | some d =>
          if d != "" then
            if cfg.objectJsonMode then
              ({ st with accumulatedText := st.accumulatedText ++ d }, [])
            else (st, [StreamPart.textDelta d])
          else (st, [])
      | none => (st, [])
  | .completed status respUsage =>
      let flush :=
        if cfg.objectJsonMode && st.accumulatedText != "" then
          [StreamPart.textDelta (extractBraces st.accumulatedText)]
        else []
      (st, flush ++ [StreamPart.finish (mapChatGPTFinishReason_v1 status)
        (usageInputTokens respUsage) (usageOutputTokens respUsage)])
  | .otherType _ => (st, [])

/-- One collected tool call of the `doGenerate` path. -/
structure CollectedToolCall where
  toolCallId : String
  toolName : String
  args : String
  deriving DecidableEq, Repr

/-- Mutable state of the `doGenerate` reducer. -/
structure GenState where
  text : String
  toolCallsCollected : List CollectedToolCall
  finishReason : FinishReason
  promptTokens : Nat
  completionTokens : Nat
  activeToolCalls : List (String × ActiveToolCall)
  warnings : List Warning
  clock : Nat
  deriving DecidableEq, Repr

/-- Initial `doGenerate` reducer state. -/
def initGenState : GenState :=
  { text := "", toolCallsCollected := [], finishReason := .stop,
    promptTokens := 0, completionTokens := 0, activeToolCalls := [],
    warnings := [], clock := 0 }

/-- One event of the `doGenerate` switch. -/
def genEvent (cfg : ReducerConfig) (st : GenState) (e : SSEEvent) : GenState :=
  match e with
  | .outputItemAdded item =>
      match item with
      | some it =>
          if it.type == "function_call" then
            let id := jsOrStr it.id ("call_" ++ toString st.clock)
            { st with
                activeToolCalls := tmSetNew st.activeToolCalls id { name := "pending", args := "" },
                clock := st.clock + 1 }
          else st
      | none => st
  | .functionCallArgumentsDelta item_id delta =>
      match item_id, delta with
      | some iid, some d =>
          if iid != "" && d != "" && tmHas st.activeToolCalls iid then
            { st with activeToolCalls := tmAppendArgs st.activeToolCalls iid d }
          else st
      | _, _ => st
  | .outputItemDone item =>
      match item with
      | some it =>
          if it.type == "function_call" && strTruthy it.name then
            match it.id with
            | some toolCallId =>
                if tmHas st.activeToolCalls toolCallId then
                  let toolCall := (tmGet st.activeToolCalls toolCallId).getD
                    { name := "pending", args := "" }
                  let finalName := it.name.getD ""
                  let finalArgs :=
                    if toolCall.args != "" then toolCall.args else jsOrStr it.arguments ""
                  let originalName := reportedToolName cfg.toolMapping finalName
                  match cfg.validate finalName finalArgs with
                  | .ok validated =>
                      { st with
                          toolCallsCollected := st.toolCallsCollected ++
                            [{ toolCallId := toolCallId, toolName := originalName, args := validated }],
                          activeToolCalls := tmDelete st.activeToolCalls toolCallId }
                  | .error msg =>
                      { st with
                          toolCallsCollected := st.toolCallsCollected ++
                            [{ toolCallId := toolCallId, toolName := originalName, args := finalArgs }],
                          warnings := st.warnings ++ [Warning.other msg],
                          activeToolCalls := tmDelete st.activeToolCalls toolCallId }
                else st
            | none => st
          else st
      | none => st
  | .outputTextDelta delta =>
      { st with text := st.text ++ jsOrStr delta "" }
  | .completed status respUsage =>
      let st1 := { st with finishReason := mapChatGPTFinishReason_v1 status }
      match respUsage with
      | some u =>
          { st1 with
              promptTokens := u.input_tokens.getD 0,
              completionTokens := u.output_tokens.getD 0 }
      | none => st1
  | .otherType _ => st

/-- Processed form of one complete SSE line: a skipped line (no data
marker, or a frame whose JSON parse failed), the `[DONE]` sentinel, or
a parsed event. -/
inductive LineAction where
  | skip
  | doneSentinel
  | event (e : SSEEvent)
  deriving DecidableEq, Repr

/-- Discriminator of the `[DONE]` sentinel action. -/
def LineAction.isDone : LineAction → Bool
  | .doneSentinel => true
  | _ => false

/-- The `doStream` read loop over line actions: the sentinel closes the
caller-facing stream and stops all further processing. -/
def runStreamActions (cfg : ReducerConfig) (st : StreamState) :
    List LineAction → List StreamPart
  | [] => []
  | .skip :: rest => runStreamActions cfg st rest
  | .doneSentinel :: _ => []
  | .event e :: rest =>
      let r := streamEvent cfg st e
      r.2 ++ runStreamActions cfg r.1 rest

/-- The inner `for (const line of lines)` loop of `doGenerate` over one
chunk: the sentinel breaks out of the current chunk only; reading then
continues with the next chunk. -/
def runGenChunk (cfg : ReducerConfig) (st : GenState) : List LineAction → GenState
  | [] => st
  | .skip :: rest => runGenChunk cfg st rest
  | .doneSentinel :: _ => st
  | .event e :: rest => runGenChunk cfg (genEvent cfg st e) rest

/-- The `doGenerate` read loop over per-chunk line actions. -/
def runGenChunks (cfg : ReducerConfig) (st : GenState)
    (chunks : List (List LineAction)) : GenState :=
  chunks.foldl (runGenChunk cfg) st

/-- Materialized `doGenerate` result (claim-relevant fields). -/
structure GenResult where
  text : Option String
  toolCalls : Option (List CollectedToolCall)
  finishReason : FinishReason
  promptTokens : Nat
  completionTokens : Nat
  warnings : Option (List Warning)
  deriving Repr

/-- Epilogue of `doGenerate`: object-json narrowing of the accumulated
text when nonempty, then assembly of the result with falsy fields
mapped to `undefined`. -/
def finalizeGen (jsonOk : String → Bool) (objectJsonMode : Bool) (st : GenState) : GenResult :=
  let text := if objectJsonMode && st.text != "" then genNarrowJson jsonOk st.text else st.text
  { text := if text = "" then none else some text,
    toolCalls := if st.toolCallsCollected.length > 0 then some st.toolCallsCollected else none,
    finishReason := st.finishReason,
    promptTokens := st.promptTokens,
    completionTokens := st.completionTokens,
    warnings := if st.warnings.length > 0 then some st.warnings else none }

/-! ## Transport framing: byte buffering and line reassembly

Both reducer paths run
`buffer += decoder.decode(value, ...)`, split the buffer on the
newline character, and keep the popped last segment per network chunk.
The streaming `TextDecoder` is modelled byte-exactly for well-formed
input by an incremental greedy decoder that emits decoded characters as
their UTF-8 byte groups and retains a trailing incomplete group.
Splitting decoded text on the newline character is exactly splitting
the group list on the group `[10]`, since continuation and multi-byte
leader bytes are all `≥ 0x80`. -/

/-- One decoded character kept as its UTF-8 byte group. -/
abbrev CharGroup := List Nat

/-- Length of the UTF-8 sequence declared by a leader byte.  Bytes that
cannot lead a sequence are consumed as single replacement units,
matching the tolerant (non-fatal) `TextDecoder`; this case never occurs
on well-formed input. -/
def utf8LeaderLen (b : Nat) : Nat :=
  if b < 0x80 then 1
  else if b < 0xC0 then 1
  else if b < 0xE0 then 2
  else if b < 0xF0 then 3
  else if b < 0xF8 then 4
  else 1

/-- Recursion core of the incremental decoder, structurally recursive on
a fuel bound so that it evaluates by kernel reduction; the fuel is
always instantiated with the length of the byte list. -/
def utf8DecodeLoop : Nat → List Nat → List CharGroup × List Nat
  | 0, l => ([], l)
  | _ + 1, [] => ([], [])
  | fuel + 1, b :: rest =>
      if rest.length + 1 < utf8LeaderLen b then ([], b :: rest)
      else
        let r := utf8DecodeLoop fuel ((b :: rest).drop (utf8LeaderLen b))
        ((b :: rest).take (utf8LeaderLen b) :: r.1, r.2)

/-- Incremental greedy UTF-8 decode: the complete character groups of a
byte list and the trailing incomplete group retained for the next read. -/
def utf8Groups (l : List Nat) : List CharGroup × List Nat :=
  utf8DecodeLoop l.length l

/-- Streaming newline split of the text buffer with carried partial
line: the
complete newline-terminated lines (as group lists, newline excluded)
and the trailing partial line. -/
def splitGroupsLines (acc : List CharGroup) (gs : List CharGroup) :
    List (List CharGroup) × List CharGroup :=
  match gs with
  | [] => ([], acc)
  | g :: rest =>
      if g = [10] then
        let r := splitGroupsLines [] rest
        (acc :: r.1, r.2)
      else splitGroupsLines (acc ++ [g]) rest

/-- Buffering state across network reads: the undecoded byte suffix
held inside the streaming decoder and the text after the last newline
(`buffer`). -/
structure ByteBufState where
  pendingBytes : List Nat
  lineBuf : List CharGroup
  deriving DecidableEq, Repr

/-- Initial buffering state. -/
def initByteBufState : ByteBufState :=
  { pendingBytes := [], lineBuf := [] }

/-- Processing of one network chunk: decode, split off the complete
lines, retain the partial line and the undecoded suffix. -/
def feedChunk (st : ByteBufState) (chunk : List Nat) :
    List (List CharGroup) × ByteBufState :=
  let d := utf8Groups (st.pendingBytes ++ chunk)
  let l := splitGroupsLines st.lineBuf d.1
  (l.1, { pendingBytes := d.2, lineBuf := l.2 })

/-- Processing of a chunk sequence, keeping the per-chunk line lists. -/
def feedChunks (st : ByteBufState) :
    List (List Nat) → List (List (List CharGroup)) × ByteBufState
  | [] => ([], st)
  | c :: cs =>
      let r := feedChunk st c
      let rs := feedChunks r.2 cs
      (r.1 :: rs.1, rs.2)

/-- ASCII text as a group list. -/
def asciiGroups (s : String) : List CharGroup :=
  s.data.map (fun c => [c.toNat])

/-- The fixed `data: ` marker. -/
def dataMarker : List CharGroup := asciiGroups "data: "

/-- The `[DONE]` sentinel payload. -/
def doneMarker : List CharGroup := asciiGroups "[DONE]"

/-- Interpretation of one complete line:
`if (!line.startsWith("data: ")) continue; const data = line.slice(6);
if (data === "[DONE]") ...; JSON.parse(data)` with `JSON.parse`
abstracted as `jsonParse` (`none` models a swallowed parse error). -/
def lineToAction (jsonParse : List CharGroup → Option SSEEvent)
    (line : List CharGroup) : LineAction :=
  if dataMarker.isPrefixOf line then
    let d := line.drop 6
    if d = doneMarker then .doneSentinel
    else
      match jsonParse d with
      | some e => .event e
      | none => .skip
  else .skip

/-- The full `doStream` pipeline from network byte chunks to emitted
parts.  The nested chunk/line loops flatten to one action sequence
because `[DONE]` aborts the entire read loop on this path. -/
def streamFromChunks (cfg : ReducerConfig)
    (jsonParse : List CharGroup → Option SSEEvent)
    (chunks : List (List Nat)) : List StreamPart :=
  let fed := feedChunks initByteBufState chunks
  runStreamActions cfg initStreamState (fed.1.flatten.map (lineToAction jsonParse))

/-- The full `doGenerate` pipeline from network byte chunks to the final
reducer state; the chunk grouping is kept because `break` on `[DONE]`
skips only the rest of the current chunk on this path. -/
def genFromChunks (cfg : ReducerConfig)
    (jsonParse : List CharGroup → Option SSEEvent)
    (chunks : List (List Nat)) : GenState :=
  let fed := feedChunks initByteBufState chunks
  runGenChunks cfg initGenState (fed.1.map (fun ls => ls.map (lineToAction jsonParse)))

/-- Discriminator of finish parts. -/
def StreamPart.isFinish : StreamPart → Bool
  | .finish .. => true
  | _ => false

/-- Discriminator of parsed completed events among line actions. -/
def LineAction.isCompletedEvent : LineAction → Bool
  | .event (.completed _ _) => true
  | _ => false

/-- State reached by the `doStream` reducer after a list of line
actions (the parts-producing loop `runStreamActions` with the emitted
parts discarded), used to decompose runs. -/
def streamEndState (cfg : ReducerConfig) (st : StreamState) :
    List LineAction → StreamState
  | [] => st
  | .skip :: rest => streamEndState cfg st rest
  | .doneSentinel :: _ => st
  | .event e :: rest => streamEndState cfg (streamEvent cfg st e).1 rest

/-- Modelled from the spec: the object-mode overlay "scans the final
accumulated text for the first `{` and last `}` and narrows the
emitted/returned text to that substring if both are found and the
substring parses as JSON; otherwise the raw text is left untouched",
with the JSON parser abstracted as `parses`.  Stated for comparison
with the narrowing the two reducer paths actually perform. -/
def specObjectModeNarrow (parses : String → Bool) (text : String) : String :=
  match jsIndexOfChar text '\x7b', jsLastIndexOfChar text '\x7d' with
  | some firstBrace, some lastBrace =>
      let sub := jsSlice text firstBrace (lastBrace + 1)
      if parses sub then sub else text
  | _, _ => text

/-! # Theorems -/

/-! ## C5 — finish-reason normalizer -/

/-- C5 (counterexample): the claim lists `tool_calls` → tool-calls as a
row of the normalizer table, but the v1 variant of
`mapChatGPTFinishReason` (the one imported by the v1 language model)
has no such case: `tool_calls` falls through to its default `unknown`. -/
theorem c5_counterexample :
    mapChatGPTFinishReason_v1 (some "tool_calls") = FinishReason.unknown
    ∧ FinishReason.unknown ≠ FinishReason.toolCalls
    ∧ mapChatGPTFinishReason_v1 (some "function_call") = FinishReason.unknown := by
  decide

/-- C5 (amended): both variants are pure total lookups.  The v2 variant
implements the full specification table (`stop`/`completed` → stop,
`length`/`max_tokens` → length, `tool_calls`/`function_call` →
tool-calls, `content_filter` → content-filter) with default stop; the
v1 variant implements the table without the
`tool_calls`/`function_call` rows (those inputs fall to the default)
with default unknown; null/undefined maps to the default in both. -/
theorem c5_amended :
    (∀ s : Option String,
      mapChatGPTFinishReason_v2 s = finishReasonLookup finishReasonTable .stop s)
    ∧ (∀ s : Option String,
      mapChatGPTFinishReason_v1 s = finishReasonLookup finishReasonTable_v1 .unknown s) := by
  refine ⟨fun s => ?_, fun s => ?_⟩ <;> rcases s with _ | str
  · rfl
  · rcases eq_or_ne str "stop" with h | h1
    · subst h; decide
    rcases eq_or_ne str "completed" with h | h2
    · subst h; decide
    rcases eq_or_ne str "length" with h | h3
    · subst h; decide
    rcases eq_or_ne str "max_tokens" with h | h4
    · subst h; decide
    rcases eq_or_ne str "tool_calls" with h | h5
    · subst h; decide
    rcases eq_or_ne str "function_call" with h | h6
    · subst h; decide
    rcases eq_or_ne str "content_filter" with h | h7
    · subst h; decide
    simp [mapChatGPTFinishReason_v2, finishReasonLookup, finishReasonTable,
      List.filter_cons, h1, h2, h3, h4, h5, h6, h7,
      Ne.symm h1, Ne.symm h2, Ne.symm h3, Ne.symm h4, Ne.symm h5, Ne.symm h6, Ne.symm h7]
  · rfl
  · rcases eq_or_ne str "stop" with h | h1
    · subst h; decide
    rcases eq_or_ne str "completed" with h | h2
    · subst h; decide
    rcases eq_or_ne str "length" with h | h3
    · subst h; decide
    rcases eq_or_ne str "max_tokens" with h | h4
    · subst h; decide
    rcases eq_or_ne str "content_filter" with h | h7
    · subst h; decide
    simp [mapChatGPTFinishReason_v1, finishReasonLookup, finishReasonTable_v1,
      List.filter_cons, h1, h2, h3, h4, h7,
      Ne.symm h1, Ne.symm h2, Ne.symm h3, Ne.symm h4, Ne.symm h7]

/-! ## C4 — usage extraction and additivity -/

/-- C4: on both paths, the reported usage takes input/output token
counts from the nested usage object of the completed event with absent
fields defaulting to zero; the `total_tokens` field of the usage object
is never read, so the reported total (the v1 interface reports the two
components, whose sum is the total) equals input plus output regardless
of any upstream total. -/
theorem c4_usage_additivity (cfg : ReducerConfig) (st : StreamState) (gst : GenState)
    (status : Option String) (inTok outTok t t' : Option Nat) :
    ((streamEvent cfg st (.completed status (some ⟨inTok, outTok, t⟩))).2.getLast? =
      some (.finish (mapChatGPTFinishReason_v1 status) (inTok.getD 0) (outTok.getD 0)))
    ∧ ((streamEvent cfg st (.completed status none)).2.getLast? =
      some (.finish (mapChatGPTFinishReason_v1 status) 0 0))
    ∧ ((genEvent cfg gst (.completed status (some ⟨inTok, outTok, t⟩))).promptTokens =
        inTok.getD 0)
    ∧ ((genEvent cfg gst (.completed status (some ⟨inTok, outTok, t⟩))).completionTokens =
        outTok.getD 0)
    ∧ ((genEvent cfg initGenState (.completed status none)).promptTokens = 0)
    ∧ ((genEvent cfg initGenState (.completed status none)).completionTokens = 0)
    ∧ (genEvent cfg gst (.completed status (some ⟨inTok, outTok, t⟩)) =
        genEvent cfg gst (.completed status (some ⟨inTok, outTok, t'⟩)))
    ∧ ((streamEvent cfg st (.completed status (some ⟨inTok, outTok, t⟩))).2 =
        (streamEvent cfg st (.completed status (some ⟨inTok, outTok, t'⟩))).2) := by
  refine ⟨?_, ?_, rfl, rfl, rfl, rfl, rfl, rfl⟩ <;>
    simp [streamEvent, usageInputTokens, usageOutputTokens, List.getLast?_concat]

/-! ## C8 — system-message handling in the message translators -/

/-- C8 (counterexample): the scenario in user mode run through the v1
translator (the one `getArgs` calls) yields a first message with no
sender-name marking (`name` is absent), and the v2 translator in
system mode still contributes one message for a system input instead
of dropping it. -/
theorem c8_counterexample :
    (convertToChatGPTMessages_v1 [.system "Be terse", .userStr "hi"] "user").1 =
      [{ role := "user", content := some "Be terse" },
       { role := "user", content := some "hi" }]
    ∧ ({ role := "user", content := some "Be terse" : ChatGPTMessage }).name = none
    ∧ (convertToChatGPTMessages_v2 [.system "Be terse"] "system").1.length = 1 := by
  decide

/-- C8 (amended): system-message handling is split across the two
translator variants.  The v2 variant in user mode yields the two
scenario messages with the first annotated `name := "system"` plus exactly
one conversion warning, but in system mode it still emits the system
content as a plain user message (no drop, no warning); the v1 variant
in user mode emits a plain user message (no sender-name marking) plus
exactly one conversion warning, and in system mode it drops the
message entirely. -/
theorem c8_amended (content text : String) :
    (convertToChatGPTMessages_v2 [.system content, .user [.text text]] "user" =
      ([{ role := "user", content := some content, name := some "system" },
        { role := "user", content := some text }],
       [Warning.other "System messages are converted to user messages with name=\"system\""]))
    ∧ (convertToChatGPTMessages_v2 [.system content] "system" =
        ([{ role := "user", content := some content }], []))
    ∧ (convertToChatGPTMessages_v1 [.system content, .userStr text] "user" =
        ([{ role := "user", content := some content },
          { role := "user", content := some text }],
         [Warning.other "System messages are converted to user messages"]))
    ∧ (convertToChatGPTMessages_v1 [.system content] "system" = ([], [])) := by
  refine ⟨rfl, rfl, rfl, rfl⟩

/-! ## C3 — done events for unopened tool-call ids -/

/-- C3 (counterexample): in the non-streaming reducer, an item-done
event for a function call whose id was never opened by a prior
item-added event is dropped, not accepted as an implicit open+close:
no tool call is collected and the result carries none. -/
theorem c3_counterexample :
    (runGenChunks ⟨false, [], fun _ a => .ok a⟩ initGenState
        [[LineAction.event (.outputItemDone
          (some ⟨"function_call", some "call_1", some "f", some "\x7b\x7d"⟩))]]).toolCallsCollected = []
    ∧ (finalizeGen (fun _ => true) false
        (runGenChunks ⟨false, [], fun _ a => .ok a⟩ initGenState
          [[LineAction.event (.outputItemDone
            (some ⟨"function_call", some "call_1", some "f", some "\x7b\x7d"⟩))]])).toolCalls
        = none := by
  exact ⟨rfl, rfl⟩

/-- C3 (amended): both reducer paths require the explicit item-added
event to have registered the id; an item-done event whose id is absent
or was never opened leaves the non-streaming state unchanged and makes
the streaming path emit nothing. -/
theorem c3_amended (cfg : ReducerConfig) (gst : GenState) (sst : StreamState) (it : SSEItem)
    (hg : ∀ i, it.id = some i → tmHas gst.activeToolCalls i = false)
    (hs : ∀ i, it.id = some i → tmHas sst.activeToolCalls i = false) :
    genEvent cfg gst (.outputItemDone (some it)) = gst
    ∧ streamEvent cfg sst (.outputItemDone (some it)) = (sst, []) := by
  constructor
  · show genEvent cfg gst (.outputItemDone (some it)) = gst
    unfold genEvent
    rcases hid : it.id with _ | i
    · simp [hid]
    · simp [hid, hg i hid]
  · show streamEvent cfg sst (.outputItemDone (some it)) = (sst, [])
    unfold streamEvent
    rcases hid : it.id with _ | i
    · simp [hid]
    · simp [hid, hs i hid]

/-- C3 (witness for the amended theorem): a concrete unopened done
event at the empty tables. -/
theorem c3_amended_witness :
    genEvent ⟨false, [], fun _ a => .ok a⟩ initGenState
        (.outputItemDone (some ⟨"function_call", some "x", some "f", none⟩)) = initGenState
    ∧ streamEvent ⟨false, [], fun _ a => .ok a⟩ initStreamState
        (.outputItemDone (some ⟨"function_call", some "x", some "f", none⟩)) =
      (initStreamState, []) :=
  c3_amended ⟨false, [], fun _ a => .ok a⟩ initGenState initStreamState
    ⟨"function_call", some "x", some "f", none⟩
    (fun i h => by cases h; rfl) (fun i h => by cases h; rfl)

/-! ## C7 — at most two backend tools -/

/-- The tool-registration loop preserves: each family flag tracks
membership of its predefined tool, the accumulated list is
duplicate-free, and every accumulated tool is one of the two
predefined tools. -/
theorem prepare_inv (ts : List CallerTool) :
    ∀ st : PrepareState,
      ((st.hasShellTool = true ↔ CODEX_SHELL_TOOL ∈ st.tools) ∧
        (st.hasUpdatePlanTool = true ↔ CODEX_UPDATE_PLAN_TOOL ∈ st.tools) ∧
        st.tools.Nodup ∧
        (∀ t ∈ st.tools, t = CODEX_SHELL_TOOL ∨ t = CODEX_UPDATE_PLAN_TOOL)) →
      (((ts.foldl prepareStep st).hasShellTool = true ↔
          CODEX_SHELL_TOOL ∈ (ts.foldl prepareStep st).tools) ∧
        ((ts.foldl prepareStep st).hasUpdatePlanTool = true ↔
          CODEX_UPDATE_PLAN_TOOL ∈ (ts.foldl prepareStep st).tools) ∧
        (ts.foldl prepareStep st).tools.Nodup ∧
        (∀ t ∈ (ts.foldl prepareStep st).tools,
          t = CODEX_SHELL_TOOL ∨ t = CODEX_UPDATE_PLAN_TOOL)) := by
  induction ts with
  | nil => intro st h; simpa using h
  | cons t ts ih =>
      intro st h
      obtain ⟨h1, h2, h3, h4⟩ := h
      rw [List.foldl_cons]
      apply ih
      simp only [prepareStep]
      split_ifs with htype hshell hflag hplan hpflag
      · exact ⟨h1, h2, h3, h4⟩
      · have hnm : CODEX_SHELL_TOOL ∉ st.tools := fun hm => by
          rw [h1.2 hm] at hflag; exact hflag rfl
        refine ⟨by simp, ?_, ?_, ?_⟩
        · simpa [List.mem_append, show CODEX_UPDATE_PLAN_TOOL ≠ CODEX_SHELL_TOOL by decide]
            using h2
        · simpa [List.nodup_append, List.disjoint_singleton] using ⟨h3, hnm⟩
        · intro u hu
          rcases List.mem_append.1 hu with hu | hu
          · exact h4 u hu
          · simp at hu; subst hu; exact Or.inl rfl
      · exact ⟨h1, h2, h3, h4⟩
      · have hnm : CODEX_UPDATE_PLAN_TOOL ∉ st.tools := fun hm => by
          rw [h2.2 hm] at hpflag; exact hpflag rfl
        refine ⟨?_, by simp, ?_, ?_⟩
        · simpa [List.mem_append, show CODEX_SHELL_TOOL ≠ CODEX_UPDATE_PLAN_TOOL by decide]
            using h1
        · simpa [List.nodup_append, List.disjoint_singleton] using ⟨h3, hnm⟩
        · intro u hu
          rcases List.mem_append.1 hu with hu | hu
          · exact h4 u hu
          · simp at hu; subst hu; exact Or.inr rfl
      · exact ⟨h1, h2, h3, h4⟩
      · exact ⟨h1, h2, h3, h4⟩

/-- A duplicate-free list drawn from the two predefined tools has at
most two entries and duplicate-free canonical names. -/
theorem tools_len_nodup (l : List ChatGPTTool) (h3 : l.Nodup)
    (h4 : ∀ t ∈ l, t = CODEX_SHELL_TOOL ∨ t = CODEX_UPDATE_PLAN_TOOL) :
    l.length ≤ 2 ∧ (l.map ChatGPTTool.name).Nodup := by
  constructor
  · have hsub : l ⊆ [CODEX_SHELL_TOOL, CODEX_UPDATE_PLAN_TOOL] := by
      intro t ht
      rcases h4 t ht with h | h <;> simp [h]
    simpa using (h3.subperm hsub).length_le
  · refine List.Nodup.map_on ?_ h3
    intro x hx y hy hxy
    rcases h4 x hx with h | h <;> rcases h4 y hy with h' | h' <;> subst h <;> subst h'
    · rfl
    · exact absurd hxy (by decide)
    · exact absurd hxy (by decide)
    · rfl

/-- The tool list produced by `prepareChatGPTTools` has at most two
entries and duplicate-free canonical names, for any input. -/
theorem prepare_tools_bound (ts : Option (List CallerTool)) (tc : Option CallerToolChoice) :
    (prepareChatGPTTools ts tc).tools.length ≤ 2
    ∧ ((prepareChatGPTTools ts tc).tools.map ChatGPTTool.name).Nodup := by
  have hinit : (initPrepareState.hasShellTool = true ↔
        CODEX_SHELL_TOOL ∈ initPrepareState.tools) ∧
      (initPrepareState.hasUpdatePlanTool = true ↔
        CODEX_UPDATE_PLAN_TOOL ∈ initPrepareState.tools) ∧
      initPrepareState.tools.Nodup ∧
      (∀ t ∈ initPrepareState.tools,
        t = CODEX_SHELL_TOOL ∨ t = CODEX_UPDATE_PLAN_TOOL) := by
    simp [initPrepareState]
  unfold prepareChatGPTTools
  rcases ts with _ | l
  · exact tools_len_nodup _ hinit.2.2.1 hinit.2.2.2
  · by_cases hl : l.length > 0
    · simp only [hl, if_true]
      obtain ⟨-, -, h3, h4⟩ := prepare_inv l initPrepareState hinit
      exact tools_len_nodup _ h3 h4
    · simp only [hl, if_false]
      exact tools_len_nodup _ hinit.2.2.1 hinit.2.2.2

/-- C7: for any set of caller tool declarations (and any call), the
tool list of the assembled request has length at most two and contains no
duplicate canonical names, regardless of how many caller tools matched
each family. -/
theorem c7_at_most_two_tools (prompt : List V1PromptMessage) (mode : CallMode)
    (ts : Option (List CallerTool)) (tc : Option CallerToolChoice) :
    ((getArgs prompt mode).args.tools.length ≤ 2
      ∧ ((getArgs prompt mode).args.tools.map ChatGPTTool.name).Nodup)
    ∧ ((prepareChatGPTTools ts tc).tools.length ≤ 2
      ∧ ((prepareChatGPTTools ts tc).tools.map ChatGPTTool.name).Nodup) := by
  refine ⟨?_, prepare_tools_bound ts tc⟩
  show ((prepareChatGPTTools _ none).tools.length ≤ 2 ∧ _)
  exact prepare_tools_bound _ none

/-! ## C6 — tool identity round-trip -/

/-- The `shell` entries of the identity map are exactly the names of the
function-typed caller tools matching the execution rule, in order. -/
theorem prepare_mapping_shell (ts : List CallerTool) :
    ∀ st : PrepareState,
      ((ts.foldl prepareStep st).toolMapping.filter (fun p => p.1 = "shell")) =
        st.toolMapping.filter (fun p => p.1 = "shell")
          ++ (ts.filter (fun t => t.type == "function" && matchesShellTool t.name)).map
              (fun t => ("shell", t.name)) := by
  induction ts with
  | nil => intro st; simp
  | cons t ts ih =>
      intro st
      rw [List.foldl_cons, List.filter_cons]
      by_cases htype : t.type == "function"
      · by_cases hshell : matchesShellTool t.name
        · by_cases hflag : st.hasShellTool <;>
            simp [prepareStep, htype, hshell, hflag, ih, mapSet, List.filter_append]
        · by_cases hplan : matchesPlanTool t.name
          · by_cases hpflag : st.hasUpdatePlanTool <;>
              simp [prepareStep, htype, hshell, hplan, hpflag, ih, mapSet, List.filter_append]
          · simp [prepareStep, htype, hshell, hplan, ih]
      · simp [prepareStep, htype, ih]

/-- The `update_plan` entries of the identity map are exactly the names
of the function-typed caller tools matching the planning rule (and not
the execution rule, which is tested first), in order. -/
theorem prepare_mapping_plan (ts : List CallerTool) :
    ∀ st : PrepareState,
      ((ts.foldl prepareStep st).toolMapping.filter (fun p => p.1 = "update_plan")) =
        st.toolMapping.filter (fun p => p.1 = "update_plan")
          ++ (ts.filter (fun t =>
                t.type == "function" && !matchesShellTool t.name && matchesPlanTool t.name)).map
              (fun t => ("update_plan", t.name)) := by
  induction ts with
  | nil => intro st; simp
  | cons t ts ih =>
      intro st
      rw [List.foldl_cons, List.filter_cons]
      by_cases htype : t.type == "function"
      · by_cases hshell : matchesShellTool t.name
        · by_cases hflag : st.hasShellTool <;>
            simp [prepareStep, htype, hshell, hflag, ih, mapSet, List.filter_append]
        · by_cases hplan : matchesPlanTool t.name
          · by_cases hpflag : st.hasUpdatePlanTool <;>
              simp [prepareStep, htype, hshell, hplan, hpflag, ih, mapSet, List.filter_append]
          · simp [prepareStep, htype, hshell, hplan, ih]
      · simp [prepareStep, htype, ih]

/-- Every key of the identity map is one of the two canonical names. -/
theorem prepare_mapping_keys (ts : List CallerTool) :
    ∀ st : PrepareState,
      (∀ p ∈ st.toolMapping, p.1 = "shell" ∨ p.1 = "update_plan") →
      ∀ p ∈ (ts.foldl prepareStep st).toolMapping,
        p.1 = "shell" ∨ p.1 = "update_plan" := by
  induction ts with
  | nil => intro st h; simpa using h
  | cons t ts ih =>
      intro st h
      rw [List.foldl_cons]
      apply ih
      simp only [prepareStep]
      split_ifs <;>
        first
          | exact h
          | (intro p hp
             rcases List.mem_append.1 hp with hp | hp
             · exact h p hp
             · simp [mapSet] at hp
               simp [hp])

/-- An empty caller name matches neither family rule. -/
theorem matches_ne_empty (n : String) :
    (matchesShellTool n = true → n ≠ "") ∧ (matchesPlanTool n = true → n ≠ "") := by
  constructor <;> intro h he <;> subst he <;> revert h <;> decide

/-- C6 (counterexample): with two caller declarations matching the
execution family, the later declaration silently overwrites the
identity entry, so a backend `shell` call is not reported under the
earlier caller-supplied name `bash`. -/
theorem c6_counterexample :
    reportedToolName
        (prepareChatGPTTools (some [⟨"function", "bash"⟩, ⟨"function", "my_command"⟩])
          none).toolMapping "shell" = "my_command"
    ∧ "my_command" ≠ "bash" := by
  exact ⟨rfl, by decide⟩

/-- C6 (amended): a backend tool call arriving under a canonical name is
reported under the name of the last caller declaration that matched the
corresponding family rule (hence under the caller-supplied name
whenever exactly one declaration matches the family), falling back to
the canonical name itself when no declaration matched; a call arriving
under a name with no identity-map entry is reported under that name
unchanged.  The streaming reducer emits the tool call under exactly the
translated name. -/
theorem c6_amended (ts : List CallerTool) (tc : Option CallerToolChoice) :
    (reportedToolName (prepareChatGPTTools (some ts) tc).toolMapping "shell" =
      (((ts.filter (fun t => t.type == "function" && matchesShellTool t.name)).getLast?).map
          CallerTool.name).getD "shell")
    ∧ (reportedToolName (prepareChatGPTTools (some ts) tc).toolMapping "update_plan" =
      (((ts.filter (fun t =>
            t.type == "function" && !matchesShellTool t.name && matchesPlanTool t.name)).getLast?).map
          CallerTool.name).getD "update_plan")
    ∧ (∀ name : String, name ≠ "shell" → name ≠ "update_plan" →
        reportedToolName (prepareChatGPTTools (some ts) tc).toolMapping name = name)
    ∧ (∀ (validate : String → String → Except String String) (args : Option String)
        (cname : String), cname ≠ "" →
        (streamEvent ⟨false, (prepareChatGPTTools (some ts) tc).toolMapping, validate⟩
            { activeToolCalls := [("id1", ⟨"pending", ""⟩)], accumulatedText := "", clock := 0 }
            (.outputItemDone (some ⟨"function_call", some "id1", some cname, args⟩))).2.map
          (fun p => match p with
            | .toolCall _ toolName _ => toolName
            | _ => "") =
          [reportedToolName (prepareChatGPTTools (some ts) tc).toolMapping cname]) := by
  have hmap : (prepareChatGPTTools (some ts) tc).toolMapping =
      if ts.length > 0 then (ts.foldl prepareStep initPrepareState).toolMapping
      else [] := by
    by_cases h : ts.length > 0 <;> simp [prepareChatGPTTools, h, initPrepareState]
  refine ⟨?_, ?_, ?_, ?_⟩
  · rcases Nat.eq_zero_or_pos ts.length with hz | hp
    · have : ts = [] := List.length_eq_zero.1 hz
      subst this
      simp [hmap, reportedToolName, mapGet, jsOrStr]
    · rw [reportedToolName, mapGet, hmap, if_pos hp, prepare_mapping_shell]
      simp only [initPrepareState, List.filter_nil, List.nil_append]
      rw [List.getLast?_map]
      rcases hlast : (ts.filter
          (fun t => t.type == "function" && matchesShellTool t.name)).getLast? with _ | t
      · rw [hlast]; simp [jsOrStr]
      · rw [hlast]
        have ht : t ∈ ts.filter (fun t => t.type == "function" && matchesShellTool t.name) := by
          obtain ⟨hne, heq⟩ := List.mem_getLast?_eq_getLast (Option.mem_def.2 hlast)
          exact heq ▸ List.getLast_mem hne
        have hsel := (List.mem_filter.1 ht).2
        have hne : t.name ≠ "" :=
          (matches_ne_empty t.name).1 (Bool.and_elim_right hsel)
        simp [jsOrStr, hne]
  · rcases Nat.eq_zero_or_pos ts.length with hz | hp
    · have : ts = [] := List.length_eq_zero.1 hz
      subst this
      simp [hmap, reportedToolName, mapGet, jsOrStr]
    · rw [reportedToolName, mapGet, hmap, if_pos hp, prepare_mapping_plan]
      simp only [initPrepareState, List.filter_nil, List.nil_append]
      rw [List.getLast?_map]
      rcases hlast : (ts.filter (fun t =>
          t.type == "function" && !matchesShellTool t.name && matchesPlanTool t.name)).getLast?
        with _ | t
      · rw [hlast]; simp [jsOrStr]
      · rw [hlast]
        have ht : t ∈ ts.filter (fun t =>
            t.type == "function" && !matchesShellTool t.name && matchesPlanTool t.name) := by
          obtain ⟨hne, heq⟩ := List.mem_getLast?_eq_getLast (Option.mem_def.2 hlast)
          exact heq ▸ List.getLast_mem hne
        have hsel := (List.mem_filter.1 ht).2
        have hne : t.name ≠ "" :=
          (matches_ne_empty t.name).2 (Bool.and_elim_right hsel)
        simp [jsOrStr, hne]
  · intro name hn1 hn2
    have hkeys : ∀ p ∈ (prepareChatGPTTools (some ts) tc).toolMapping,
        p.1 = "shell" ∨ p.1 = "update_plan" := by
      rw [hmap]
      split_ifs
      · exact prepare_mapping_keys ts initPrepareState (by simp [initPrepareState])
      · simp
    have hfilter : ((prepareChatGPTTools (some ts) tc).toolMapping.filter
        (fun p => p.1 = name)) = [] := by
      rw [List.filter_eq_nil_iff]
      intro p hp
      rcases hkeys p hp with h | h <;> simp [h] <;> intro he <;>
        first | exact hn1 he.symm | exact hn2 he.symm
    simp [reportedToolName, mapGet, hfilter, jsOrStr]
  · intro validate args cname hc
    simp only [streamEvent, tmHas, tmGet, tmDelete, strTruthy]
    rcases hv : validate cname (jsOrStr args "") with v | e <;> simp [hv, hc]

/-- C6 (witness for the amended theorem): a single matching declaration
round-trips, and an unmapped name passes through. -/
theorem c6_amended_witness :
    reportedToolName
        (prepareChatGPTTools (some [⟨"function", "bash"⟩]) none).toolMapping "shell" = "bash"
    ∧ reportedToolName
        (prepareChatGPTTools (some [⟨"function", "bash"⟩]) none).toolMapping "mystery"
        = "mystery"
    ∧ (streamEvent ⟨false, (prepareChatGPTTools (some [⟨"function", "bash"⟩]) none).toolMapping,
          fun _ a => .ok a⟩
          { activeToolCalls := [("id1", ⟨"pending", ""⟩)], accumulatedText := "", clock := 0 }
          (.outputItemDone (some ⟨"function_call", some "id1", some "shell", none⟩))).2.map
        (fun p => match p with
          | .toolCall _ toolName _ => toolName
          | _ => "") =
        [reportedToolName
          (prepareChatGPTTools (some [⟨"function", "bash"⟩]) none).toolMapping "shell"] := by
  refine ⟨?_, ?_, ?_⟩
  · have h := (c6_amended [⟨"function", "bash"⟩] none).1
    simpa using h
  · exact (c6_amended [⟨"function", "bash"⟩] none).2.2.1 "mystery" (by decide) (by decide)
  · exact (c6_amended [⟨"function", "bash"⟩] none).2.2.2 (fun _ a => .ok a) none "shell" (by decide)

/-! ## C10 — request tool choice -/

/-- C10: the `tool_choice` of the assembled request is determined solely by
whether any backend tool was mapped and whether the input contains a
tool-role message: `none` with no mapped tool, `required` with mapped
tools and no tool-role message, `auto` with mapped tools and at least
one tool-role message (presence of tool-role messages is unaffected by
the object-json prompt unshift); the tool choice resolved by
`prepareChatGPTTools` is discarded — at the same single-tool input the
mapper resolves `auto` while the assembled request carries `required`. -/
theorem c10_tool_choice (prompt : List V1PromptMessage) (mode : CallMode) :
    ((getArgs prompt mode).args.tool_choice =
      if (getArgs prompt mode).args.tools.length = 0 then .none
      else if (convertToChatGPTMessages_v1 prompt "user").1.any (fun m => m.role == "tool")
      then .auto else .required)
    ∧ ((getArgs prompt mode).args.input.any (fun m => m.role == "tool") =
        (convertToChatGPTMessages_v1 prompt "user").1.any (fun m => m.role == "tool"))
    ∧ (prepareChatGPTTools (some [⟨"function", "bash"⟩]) none).toolChoice = some .auto
    ∧ (getArgs [] (.regular (some [⟨"function", "bash"⟩]))).args.tool_choice = .required := by
  refine ⟨?_, ?_, by decide, by decide⟩
  · rcases mode with mts | _ | _ <;>
    [rcases Nat.eq_zero_or_pos (prepareChatGPTTools mts none).tools.length with h | h;
     rcases Nat.eq_zero_or_pos (prepareChatGPTTools none none).tools.length with h | h;
     rcases Nat.eq_zero_or_pos (prepareChatGPTTools none none).tools.length with h | h] <;>
      simp [getArgs, h, Nat.pos_iff_ne_zero.1, Nat.ne_of_gt]
  · rcases mode with ts | _ | _ <;> simp [getArgs]

/-! ## C1 — terminal-event exclusivity on the streaming path -/

/-- A single event emits a finish part exactly when it is a completed
event (and then exactly one). -/
theorem streamEvent_finish_count (cfg : ReducerConfig) (st : StreamState) (e : SSEEvent) :
    ((streamEvent cfg st e).2.filter StreamPart.isFinish).length =
      (if (LineAction.event e).isCompletedEvent = true then 1 else 0) := by
  rcases e with item | ⟨iid, d⟩ | item | d | ⟨s, u⟩ | ty
  all_goals
    simp only [streamEvent, LineAction.isCompletedEvent]
    repeat' split
    all_goals simp_all [StreamPart.isFinish]

/-- Runs over sentinel-free action prefixes decompose. -/
theorem runStreamActions_append (cfg : ReducerConfig) (as bs : List LineAction) :
    ∀ st, (∀ a ∈ as, a.isDone = false) →
      runStreamActions cfg st (as ++ bs) =
        runStreamActions cfg st as ++ runStreamActions cfg (streamEndState cfg st as) bs := by
  induction as with
  | nil => intro st _; simp [runStreamActions, streamEndState]
  | cons a as ih =>
      intro st h
      rcases a with _ | _ | e
      · simp only [List.cons_append, runStreamActions, streamEndState, List.append_eq]
        exact ih st (fun x hx => h x (List.mem_cons_of_mem _ hx))
      · have := h .doneSentinel (List.mem_cons_self _ _)
        simp [LineAction.isDone] at this
      · simp only [List.cons_append, runStreamActions, streamEndState, List.append_eq]
        rw [ih _ (fun x hx => h x (List.mem_cons_of_mem _ hx)), List.append_assoc]

/-- A run over actions containing no completed event emits no finish
part. -/
theorem runStream_finish_free (cfg : ReducerConfig) (as : List LineAction) :
    ∀ st, (∀ a ∈ as, a.isCompletedEvent = false) →
      ∀ p ∈ runStreamActions cfg st as, p.isFinish = false := by
  induction as with
  | nil => intro st _ p hp; simp [runStreamActions] at hp
  | cons a as ih =>
      intro st h p hp
      rcases a with _ | _ | e
      · exact ih st (fun x hx => h x (List.mem_cons_of_mem _ hx)) p
          (by simpa [runStreamActions] using hp)
      · simp [runStreamActions] at hp
      · simp only [runStreamActions] at hp
        rcases List.mem_append.1 hp with hp | hp
        · have hc := streamEvent_finish_count cfg st e
          rw [if_neg (by simpa using h (.event e) (List.mem_cons_self _ _))] at hc
          by_contra hfin
          rw [Bool.not_eq_false] at hfin
          have hmem : p ∈ (streamEvent cfg st e).2.filter StreamPart.isFinish :=
            List.mem_filter.2 ⟨hp, hfin⟩
          rw [List.length_eq_zero.1 hc] at hmem
          simp at hmem
        · exact ih _ (fun x hx => h x (List.mem_cons_of_mem _ hx)) p hp

/-- C1 (counterexample): the streaming reducer keeps processing after a
completed event — a text delta arriving after it is emitted after the
finish part, and a second completed event produces a second finish
part. -/
theorem c1_counterexample :
    runStreamActions ⟨false, [], fun _ a => .ok a⟩ initStreamState
        [.event (.completed (some "completed") none), .event (.outputTextDelta (some "x"))]
      = [.finish .stop 0 0, .textDelta "x"]
    ∧ ((runStreamActions ⟨false, [], fun _ a => .ok a⟩ initStreamState
        [.event (.completed (some "completed") none),
         .event (.completed (some "completed") none)]).filter
        StreamPart.isFinish).length = 2 :=
  ⟨rfl, rfl⟩

/-- C1 (amended): for every backend stream whose events contain no
completed event and no sentinel before a final completed event — the
shape of a well-formed backend stream — the caller-facing stream emits
exactly one finish part and it is the last emitted part; events after a
completed event would be forwarded, so exclusivity holds only for this
well-formed shape. -/
theorem c1_amended (cfg : ReducerConfig) (as : List LineAction)
    (status : Option String) (ru : Option SSEUsage)
    (h : ∀ a ∈ as, a.isCompletedEvent = false ∧ a.isDone = false) :
    ∃ pre,
      runStreamActions cfg initStreamState (as ++ [.event (.completed status ru)]) =
        pre ++ [.finish (mapChatGPTFinishReason_v1 status)
          (usageInputTokens ru) (usageOutputTokens ru)]
      ∧ (∀ p ∈ pre, p.isFinish = false)
      ∧ ((runStreamActions cfg initStreamState
          (as ++ [.event (.completed status ru)])).filter StreamPart.isFinish).length = 1 := by
  rw [runStreamActions_append cfg as _ initStreamState (fun a ha => (h a ha).2)]
  have hemit : runStreamActions cfg (streamEndState cfg initStreamState as)
      [.event (.completed status ru)] =
      (if cfg.objectJsonMode &&
          (streamEndState cfg initStreamState as).accumulatedText != "" then
        [StreamPart.textDelta
          (extractBraces (streamEndState cfg initStreamState as).accumulatedText)]
      else []) ++
      [.finish (mapChatGPTFinishReason_v1 status)
        (usageInputTokens ru) (usageOutputTokens ru)] := by
    simp [runStreamActions, streamEvent]
  rw [hemit]
  refine ⟨runStreamActions cfg initStreamState as ++
    (if cfg.objectJsonMode &&
        (streamEndState cfg initStreamState as).accumulatedText != "" then
      [StreamPart.textDelta
        (extractBraces (streamEndState cfg initStreamState as).accumulatedText)]
    else []), ?_, ?_, ?_⟩
  · rw [List.append_assoc]
  · intro p hp
    rcases List.mem_append.1 hp with hp | hp
    · exact runStream_finish_free cfg as initStreamState (fun a ha => (h a ha).1) p hp
    · rcases hj : cfg.objectJsonMode &&
          (streamEndState cfg initStreamState as).accumulatedText != ""
      · rw [hj] at hp; simp at hp
      · rw [hj] at hp; simp at hp; simp [hp, StreamPart.isFinish]
  · rw [← List.append_assoc, List.filter_append]
    have hnil : (runStreamActions cfg initStreamState as ++
        (if cfg.objectJsonMode &&
            (streamEndState cfg initStreamState as).accumulatedText != "" then
          [StreamPart.textDelta
            (extractBraces (streamEndState cfg initStreamState as).accumulatedText)]
        else [])).filter StreamPart.isFinish = [] := by
      rw [List.filter_eq_nil_iff]
      intro p hp
      rcases List.mem_append.1 hp with hp | hp
      · simp [runStream_finish_free cfg as initStreamState (fun a ha => (h a ha).1) p hp]
      · rcases hj : cfg.objectJsonMode &&
            (streamEndState cfg initStreamState as).accumulatedText != ""
        · rw [hj] at hp; simp at hp
        · rw [hj] at hp; simp at hp; simp [hp, StreamPart.isFinish]
    rw [hnil]
    simp [StreamPart.isFinish]

/-- C1 (witness for the amended theorem): a concrete well-formed stream
of one text delta followed by one completed event. -/
theorem c1_amended_witness :
    ∃ pre,
      runStreamActions ⟨false, [], fun _ a => .ok a⟩ initStreamState
        ([.event (.outputTextDelta (some "hi"))] ++
          [.event (.completed (some "completed") none)]) =
        pre ++ [.finish (mapChatGPTFinishReason_v1 (some "completed"))
          (usageInputTokens none) (usageOutputTokens none)]
      ∧ (∀ p ∈ pre, p.isFinish = false)
      ∧ ((runStreamActions ⟨false, [], fun _ a => .ok a⟩ initStreamState
          ([.event (.outputTextDelta (some "hi"))] ++
            [.event (.completed (some "completed") none)])).filter
          StreamPart.isFinish).length = 1 :=
  c1_amended ⟨false, [], fun _ a => .ok a⟩ [.event (.outputTextDelta (some "hi"))]
    (some "completed") none (by decide)

/-! ## C9 — object-json narrowing -/

/-- C9 (counterexample): on the stream path the flushed object-json
text is narrowed to the brace substring with no JSON-validity check —
at the text a-open-brace-b-close-brace-c the reducer emits the brace
substring even under a parser rejecting
it, while the specified behavior (spec-modelled, with a rejecting
parser) keeps the raw text. -/
theorem c9_counterexample :
    (streamEvent ⟨true, [], fun _ a => .ok a⟩
        { activeToolCalls := [], accumulatedText := "a\x7bb\x7dc", clock := 0 }
        (.completed (some "completed") none)).2
      = [.textDelta "\x7bb\x7d", .finish .stop 0 0]
    ∧ specObjectModeNarrow (fun _ => false) "a\x7bb\x7dc" = "a\x7bb\x7dc"
    ∧ ("\x7bb\x7d" : String) ≠ "a\x7bb\x7dc" := by
  refine ⟨rfl, rfl, by decide⟩

/-- C9 (amended): when both braces are found, the generate path narrows
the accumulated text to the brace substring only if `JSON.parse`
(abstracted as `jsonOk`) accepts it, keeping the raw text otherwise and
never failing; the stream path narrows the flushed text to the brace
substring unconditionally, with no JSON-validity check.  Narrowing
applies only in object-json mode and only to nonempty text, and when
either brace is missing both paths leave the text untouched. -/
theorem c9_amended (mapping : List (String × String))
    (validate : String → String → Except String String)
    (jsonOk : String → Bool) (st : StreamState)
    (status : Option String) (ru : Option SSEUsage) (i j : Nat)
    (hi : jsIndexOfChar st.accumulatedText '\x7b' = some i)
    (hj : jsLastIndexOfChar st.accumulatedText '\x7d' = some j) :
    (streamEvent ⟨true, mapping, validate⟩ st (.completed status ru)).2 =
      [.textDelta (jsSlice st.accumulatedText i (j + 1)),
       .finish (mapChatGPTFinishReason_v1 status) (usageInputTokens ru) (usageOutputTokens ru)]
    ∧ genNarrowJson jsonOk st.accumulatedText =
        (if jsonOk (jsSlice st.accumulatedText i (j + 1)) then
          jsSlice st.accumulatedText i (j + 1) else st.accumulatedText)
    ∧ (∀ g : GenState, g.text ≠ "" →
        (finalizeGen jsonOk true g).text =
          (if genNarrowJson jsonOk g.text = "" then none
           else some (genNarrowJson jsonOk g.text)))
    ∧ (∀ g : GenState, (finalizeGen jsonOk false g).text =
        (if g.text = "" then none else some g.text))
    ∧ (∀ text : String,
        jsIndexOfChar text '\x7b' = none ∨ jsLastIndexOfChar text '\x7d' = none →
        extractBraces text = text ∧ genNarrowJson jsonOk text = text) := by
  have hne : st.accumulatedText ≠ "" := by
    intro he
    rw [he, show jsIndexOfChar "" '\x7b' = none from rfl] at hi
    cases hi
  refine ⟨?_, ?_, ?_, ?_, ?_⟩
  · simp [streamEvent, extractBraces, hi, hj, bne_iff_ne, hne]
  · simp [genNarrowJson, hi, hj]
  · intro g hg
    simp [finalizeGen, bne_iff_ne, hg]
  · intro g
    by_cases hg : g.text = "" <;> simp [finalizeGen, hg]
  · intro text h
    rcases hfi : jsIndexOfChar text '\x7b' with _ | i'
    · simp [extractBraces, genNarrowJson, hfi]
    · rcases h with h | h
      · rw [hfi] at h; cases h
      · simp [extractBraces, genNarrowJson, hfi, h]

/-- C9 (witness for the amended theorem): the concrete five-character
text with braces at indices 1 and 3. -/
theorem c9_amended_witness :
    (streamEvent ⟨true, [], fun _ a => .ok a⟩
        { activeToolCalls := [], accumulatedText := "a\x7bb\x7dc", clock := 0 }
        (.completed (some "completed") none)).2 =
      [.textDelta (jsSlice "a\x7bb\x7dc" 1 (3 + 1)),
       .finish (mapChatGPTFinishReason_v1 (some "completed"))
         (usageInputTokens none) (usageOutputTokens none)]
    ∧ genNarrowJson (fun _ => false) "a\x7bb\x7dc" =
        (if (fun _ => false : String → Bool) (jsSlice "a\x7bb\x7dc" 1 (3 + 1)) then
          jsSlice "a\x7bb\x7dc" 1 (3 + 1) else "a\x7bb\x7dc")
    ∧ (∀ g : GenState, g.text ≠ "" →
        (finalizeGen (fun _ => false) true g).text =
          (if genNarrowJson (fun _ => false) g.text = "" then none
           else some (genNarrowJson (fun _ => false) g.text)))
    ∧ (∀ g : GenState, (finalizeGen (fun _ => false) false g).text =
        (if g.text = "" then none else some g.text))
    ∧ (∀ text : String,
        jsIndexOfChar text '\x7b' = none ∨ jsLastIndexOfChar text '\x7d' = none →
        extractBraces text = text ∧ genNarrowJson (fun _ => false) text = text) :=
  c9_amended [] (fun _ a => .ok a) (fun _ => false)
    { activeToolCalls := [], accumulatedText := "a\x7bb\x7dc", clock := 0 }
    (some "completed") none 1 3 rfl rfl

/-! ## C2 — chunk-boundary invariance of line reassembly -/

/-- Every leader length is positive. -/
theorem utf8LeaderLen_pos (b : Nat) : 1 ≤ utf8LeaderLen b := by
  unfold utf8LeaderLen; split_ifs <;> omega

/-- The decode loop is independent of the fuel once the fuel covers the
byte-list length. -/
theorem utf8DecodeLoop_fuel : ∀ (fuel : Nat) (l : List Nat), l.length ≤ fuel →
    utf8DecodeLoop fuel l = utf8Groups l := by
  intro fuel
  induction fuel using Nat.strong_induction_on with
  | _ fuel ih =>
    intro l hl
    rcases fuel with _ | n
    · have : l = [] := List.length_eq_zero.1 (Nat.le_zero.1 hl)
      subst this; rfl
    · rcases l with _ | ⟨b, rest⟩
      · rfl
      · show utf8DecodeLoop (n + 1) (b :: rest) =
          utf8DecodeLoop (rest.length + 1) (b :: rest)
        simp only [utf8DecodeLoop]
        by_cases hc : rest.length + 1 < utf8LeaderLen b
        · rw [if_pos hc, if_pos hc]
        · rw [if_neg hc, if_neg hc]
          have h1 := utf8LeaderLen_pos b
          simp only [List.length_cons] at hl
          have hd : ((b :: rest).drop (utf8LeaderLen b)).length ≤ n := by
            simp only [List.length_drop, List.length_cons]
            omega
          have hd2 : ((b :: rest).drop (utf8LeaderLen b)).length ≤ rest.length := by
            simp only [List.length_drop, List.length_cons]
            omega
          rw [ih n (by omega) _ hd, ih rest.length (by omega) _ hd2]

/-- Greedy incremental decoding composes across an arbitrary split: the
decoded groups of the concatenation are the groups of the first part
followed by the groups of its retained suffix prepended to the second
part, with the leftover carried through. -/
theorem utf8Groups_append (a b : List Nat) :
    utf8Groups (a ++ b) =
      ((utf8Groups a).1 ++ (utf8Groups ((utf8Groups a).2 ++ b)).1,
       (utf8Groups ((utf8Groups a).2 ++ b)).2) := by
  have H : ∀ (n : Nat) (a : List Nat), a.length ≤ n → ∀ b : List Nat,
      utf8Groups (a ++ b) =
        ((utf8Groups a).1 ++ (utf8Groups ((utf8Groups a).2 ++ b)).1,
         (utf8Groups ((utf8Groups a).2 ++ b)).2) := by
    intro n
    induction n with
    | zero =>
        intro a ha b
        have : a = [] := List.length_eq_zero.1 (Nat.le_zero.1 ha)
        subst this
        simp [utf8Groups, utf8DecodeLoop]
    | succ n ih =>
        intro a ha b
        rcases a with _ | ⟨x, xs⟩
        · simp [utf8Groups, utf8DecodeLoop]
        · have h1 := utf8LeaderLen_pos x
          by_cases hc : xs.length + 1 < utf8LeaderLen x
          · have e1 : utf8Groups (x :: xs) = ([], x :: xs) := by
              show utf8DecodeLoop (xs.length + 1) (x :: xs) = _
              simp only [utf8DecodeLoop]
              rw [if_pos hc]
            rw [e1]
            simp
          · have hcle : utf8LeaderLen x ≤ xs.length + 1 := by omega
            have e1 : utf8Groups (x :: xs) =
                ((x :: xs).take (utf8LeaderLen x) ::
                    (utf8Groups ((x :: xs).drop (utf8LeaderLen x))).1,
                 (utf8Groups ((x :: xs).drop (utf8LeaderLen x))).2) := by
              show utf8DecodeLoop (xs.length + 1) (x :: xs) = _
              simp only [utf8DecodeLoop]
              rw [if_neg hc,
                utf8DecodeLoop_fuel xs.length _
                  (by simp only [List.length_drop, List.length_cons]; omega)]
            have hcle' : utf8LeaderLen x ≤ (x :: xs).length := by
              simp only [List.length_cons]; omega
            have e2 : utf8Groups ((x :: xs) ++ b) =
                ((x :: xs).take (utf8LeaderLen x) ::
                    (utf8Groups ((x :: xs).drop (utf8LeaderLen x) ++ b)).1,
                 (utf8Groups ((x :: xs).drop (utf8LeaderLen x) ++ b)).2) := by
              show utf8DecodeLoop ((xs ++ b).length + 1) (x :: (xs ++ b)) = _
              simp only [utf8DecodeLoop]
              rw [if_neg (by simp only [List.length_append]; omega)]
              rw [show (x :: (xs ++ b)) = ((x :: xs) ++ b) from rfl]
              rw [List.take_append_of_le_length hcle',
                List.drop_append_of_le_length hcle',
                utf8DecodeLoop_fuel _ _ (by
                  simp only [List.length_append, List.length_drop, List.length_cons]
                  omega)]
            rw [e1, e2]
            have hlen : ((x :: xs).drop (utf8LeaderLen x)).length ≤ n := by
              simp only [List.length_drop, List.length_cons]
              simp only [List.length_cons] at ha
              omega
            rw [ih _ hlen b]
            simp
  exact H a.length a le_rfl b

/-- The retained decoder suffix decodes to nothing on its own. -/
theorem utf8Groups_leftover : ∀ (l : List Nat),
    utf8Groups ((utf8Groups l).2) = ([], (utf8Groups l).2) := by
  have H : ∀ (n : Nat) (l : List Nat), l.length ≤ n →
      utf8Groups ((utf8Groups l).2) = ([], (utf8Groups l).2) := by
    intro n
    induction n with
    | zero =>
        intro l hl
        have : l = [] := List.length_eq_zero.1 (Nat.le_zero.1 hl)
        subst this; rfl
    | succ n ih =>
        intro l hl
        rcases l with _ | ⟨b, rest⟩
        · rfl
        · by_cases hc : rest.length + 1 < utf8LeaderLen b
          · have e1 : utf8Groups (b :: rest) = ([], b :: rest) := by
              show utf8DecodeLoop (rest.length + 1) (b :: rest) = _
              simp only [utf8DecodeLoop]
              rw [if_pos hc]
            rw [e1, e1]
          · have h1 := utf8LeaderLen_pos b
            have e1 : utf8Groups (b :: rest) =
                ((b :: rest).take (utf8LeaderLen b) ::
                    (utf8Groups ((b :: rest).drop (utf8LeaderLen b))).1,
                 (utf8Groups ((b :: rest).drop (utf8LeaderLen b))).2) := by
              show utf8DecodeLoop (rest.length + 1) (b :: rest) = _
              simp only [utf8DecodeLoop]
              rw [if_neg hc,
                utf8DecodeLoop_fuel rest.length _
                  (by simp only [List.length_drop, List.length_cons]; omega)]
            rw [e1]
            exact ih _ (by
              simp only [List.length_drop, List.length_cons]
              simp only [List.length_cons] at hl
              omega)
  exact fun l => H l.length l le_rfl

/-- Streaming line splitting composes across an arbitrary split of the
decoded character groups. -/
theorem splitGroupsLines_append : ∀ (xs ys : List CharGroup) (acc : List CharGroup),
    splitGroupsLines acc (xs ++ ys) =
      ((splitGroupsLines acc xs).1 ++
          (splitGroupsLines (splitGroupsLines acc xs).2 ys).1,
       (splitGroupsLines (splitGroupsLines acc xs).2 ys).2) := by
  intro xs
  induction xs with
  | nil => intro ys acc; simp [splitGroupsLines]
  | cons g gs ih =>
      intro ys acc
      by_cases hg : g = [10]
      · simp only [List.cons_append, splitGroupsLines, hg, if_pos, List.append_eq]
        rw [ih]
      · simp only [List.cons_append, splitGroupsLines, hg, if_neg, ite_false,
          List.append_eq]
        rw [ih]

/-- One-chunk processing composes across an arbitrary split of the
chunk bytes. -/
theorem feedChunk_append (st : ByteBufState) (c1 c2 : List Nat) :
    feedChunk st (c1 ++ c2) =
      ((feedChunk st c1).1 ++ (feedChunk (feedChunk st c1).2 c2).1,
       (feedChunk (feedChunk st c1).2 c2).2) := by
  simp only [feedChunk, ← List.append_assoc]
  rw [utf8Groups_append (st.pendingBytes ++ c1) c2]
  rw [splitGroupsLines_append]

/-- Chunked processing equals one-shot processing of the concatenated
bytes: the same complete lines in the same order, and the same retained
partial state, provided the initial pending bytes are undecodable (true
of the initial state and preserved by every read). -/
theorem feedChunks_flatten : ∀ (chunks : List (List Nat)) (st : ByteBufState),
    utf8Groups st.pendingBytes = ([], st.pendingBytes) →
    (feedChunks st chunks).1.flatten = (feedChunk st chunks.flatten).1
      ∧ (feedChunks st chunks).2 = (feedChunk st chunks.flatten).2 := by
  intro chunks
  induction chunks with
  | nil =>
      intro st hst
      constructor <;>
        simp [feedChunks, feedChunk, hst, splitGroupsLines]
  | cons c cs ih =>
      intro st hst
      have hpres : utf8Groups ((feedChunk st c).2).pendingBytes =
          ([], ((feedChunk st c).2).pendingBytes) := by
        simp only [feedChunk]
        exact utf8Groups_leftover _
      obtain ⟨ih1, ih2⟩ := ih (feedChunk st c).2 hpres
      have happ := feedChunk_append st c cs.flatten
      constructor
      · simp only [feedChunks, List.flatten_cons]
        rw [ih1, happ]
      · simp only [feedChunks, List.flatten_cons]
        rw [ih2, happ]

/-- Sentinel-freedom of a dropLast list passes to the tail. -/
theorem dropLast_cons_mem {x : LineAction} {l : List LineAction}
    (h : ∀ y ∈ (x :: l).dropLast, y.isDone = false) :
    ∀ y ∈ l.dropLast, y.isDone = false := by
  intro y hy
  rcases l with _ | ⟨z, zs⟩
  · simp at hy
  · rw [List.dropLast_cons_of_ne_nil (by simp)] at h
    exact h y (List.mem_cons_of_mem _ hy)

/-- Chunks that contribute no line leave the generate reducer state
unchanged. -/
theorem runGenChunks_nil_groups (cfg : ReducerConfig) :
    ∀ (gs : List (List LineAction)) (st : GenState), (∀ g ∈ gs, g = []) →
      runGenChunks cfg st gs = st := by
  intro gs
  induction gs with
  | nil => intro st _; rfl
  | cons g gs ih =>
      intro st h
      have hg : g = [] := h g (List.mem_cons_self _ _)
      subst hg
      show runGenChunks cfg st gs = st
      exact ih st (fun x hx => h x (List.mem_cons_of_mem _ hx))

/-- The per-chunk generate loops produce the same state as one loop
over all lines, provided the sentinel occurs at most as the very last
line — the shape of a well-formed SSE stream, where `[DONE]` is the
terminal frame. -/
theorem runGenChunks_flatten (cfg : ReducerConfig) :
    ∀ (gss : List (List LineAction)) (st : GenState),
      (∀ a ∈ gss.flatten.dropLast, a.isDone = false) →
      runGenChunks cfg st gss = runGenChunk cfg st gss.flatten := by
  intro gss
  induction gss with
  | nil => intro st _; rfl
  | cons g gs ih =>
      induction g with
      | nil =>
          intro st h
          show runGenChunks cfg st gs = runGenChunk cfg st (([] : List LineAction) :: gs).flatten
          rw [List.flatten_cons, List.nil_append]
          exact ih st (by simpa [List.flatten_cons] using h)
      | cons a g ihg =>
          intro st h
          rcases a with _ | _ | e
          · have hcond : ∀ x ∈ ((g :: gs).flatten).dropLast, x.isDone = false := by
              rw [List.flatten_cons]
              rw [List.flatten_cons, List.cons_append] at h
              exact dropLast_cons_mem h
            exact ihg st hcond
          · have hgF : g = [] ∧ gs.flatten = [] := by
              by_contra hcon
              have hne : g ++ gs.flatten ≠ [] := by
                intro hnil
                rcases List.append_eq_nil.1 hnil with ⟨h1, h2⟩
                exact hcon ⟨h1, h2⟩
              have hmem : LineAction.doneSentinel ∈
                  (((LineAction.doneSentinel :: g) :: gs).flatten).dropLast := by
                rw [List.flatten_cons, List.cons_append,
                  List.dropLast_cons_of_ne_nil hne]
                exact List.mem_cons_self _ _
              have := h _ hmem
              simp [LineAction.isDone] at this
            obtain ⟨hg0, hF0⟩ := hgF
            subst hg0
            have hLHS : runGenChunks cfg st ([LineAction.doneSentinel] :: gs) = st := by
              show runGenChunks cfg st gs = st
              exact runGenChunks_nil_groups cfg gs st (List.flatten_eq_nil_iff.1 hF0)
            rw [hLHS, List.flatten_cons, hF0, List.append_nil]
            rfl
          · have hcond : ∀ x ∈ ((g :: gs).flatten).dropLast, x.isDone = false := by
              rw [List.flatten_cons]
              rw [List.flatten_cons, List.cons_append] at h
              exact dropLast_cons_mem h
            exact ihg (genEvent cfg st e) hcond

/-- C2: feeding the chunks of an arbitrary partition of an SSE byte
sequence one at a time produces the identical caller-facing outcome as
feeding the whole sequence as a single chunk — identical emitted stream
parts, identical final generate-reducer state (given the well-formed
placement of the `[DONE]` sentinel as the last complete line, stated as
the hypothesis), and identical complete processed lines with identical
retained partial state: only complete newline-terminated lines are
processed and the trailing partial line and undecoded byte suffix are
retained.  This covers splits at arbitrary boundaries, including inside
a multi-byte UTF-8 codepoint, whose bytes stay in the retained decoder
suffix until completed. -/
theorem c2_chunk_invariance (cfg : ReducerConfig)
    (jsonParse : List CharGroup → Option SSEEvent)
    (chunks : List (List Nat))
    (hsse : (((feedChunk initByteBufState chunks.flatten).1.dropLast).all
        (fun l => !(lineToAction jsonParse l).isDone)) = true) :
    streamFromChunks cfg jsonParse chunks = streamFromChunks cfg jsonParse [chunks.flatten]
    ∧ genFromChunks cfg jsonParse chunks = genFromChunks cfg jsonParse [chunks.flatten]
    ∧ (feedChunks initByteBufState chunks).1.flatten =
        (feedChunk initByteBufState chunks.flatten).1
    ∧ (feedChunks initByteBufState chunks).2 =
        (feedChunk initByteBufState chunks.flatten).2 := by
  have hinv : utf8Groups initByteBufState.pendingBytes = ([], initByteBufState.pendingBytes) :=
    rfl
  obtain ⟨hf1, hf2⟩ := feedChunks_flatten chunks initByteBufState hinv
  have hone : (feedChunks initByteBufState [chunks.flatten]).1 =
      [(feedChunk initByteBufState chunks.flatten).1] := by
    simp [feedChunks]
  refine ⟨?_, ?_, hf1, hf2⟩
  · simp only [streamFromChunks]
    rw [hone]
    simp only [List.flatten_cons, List.flatten_nil, List.append_nil]
    rw [hf1]
  · simp only [genFromChunks]
    rw [hone]
    have hdone : ∀ a ∈ (((feedChunks initByteBufState chunks).1.map
        (fun ls => ls.map (lineToAction jsonParse))).flatten).dropLast,
        a.isDone = false := by
      intro a ha
      rw [← List.map_flatten, hf1, ← List.map_dropLast] at ha
      obtain ⟨l, hl, rfl⟩ := List.mem_map.1 ha
      simpa using (List.all_eq_true.1 hsse) l hl
    rw [runGenChunks_flatten cfg _ initGenState hdone]
    rw [← List.map_flatten, hf1]
    show runGenChunk cfg initGenState _ =
      runGenChunks cfg initGenState [((feedChunk initByteBufState chunks.flatten).1).map
        (lineToAction jsonParse)]
    show runGenChunk cfg initGenState _ =
      runGenChunk cfg initGenState (((feedChunk initByteBufState chunks.flatten).1).map
        (lineToAction jsonParse))
    rfl

/-- C2 (witness): the bytes of `"data: é\n"` split in the middle of the
two-byte codepoint `é`, fed as two chunks and as one chunk. -/
theorem c2_chunk_invariance_witness :
    ((((feedChunk initByteBufState
          ([[100, 97, 116, 97, 58, 32, 195], [169, 10]] :
            List (List Nat)).flatten).1.dropLast).all
        (fun l => !(lineToAction (fun _ => none) l).isDone)) = true)
    ∧ (streamFromChunks ⟨false, [], fun _ a => Except.ok a⟩ (fun _ => none)
          [[100, 97, 116, 97, 58, 32, 195], [169, 10]] =
        streamFromChunks ⟨false, [], fun _ a => Except.ok a⟩ (fun _ => none)
          [([[100, 97, 116, 97, 58, 32, 195], [169, 10]] :
            List (List Nat)).flatten]
      ∧ genFromChunks ⟨false, [], fun _ a => Except.ok a⟩ (fun _ => none)
          [[100, 97, 116, 97, 58, 32, 195], [169, 10]] =
        genFromChunks ⟨false, [], fun _ a => Except.ok a⟩ (fun _ => none)
          [([[100, 97, 116, 97, 58, 32, 195], [169, 10]] :
            List (List Nat)).flatten]
      ∧ (feedChunks initByteBufState
            [[100, 97, 116, 97, 58, 32, 195], [169, 10]]).1.flatten =
          (feedChunk initByteBufState
            ([[100, 97, 116, 97, 58, 32, 195], [169, 10]] :
              List (List Nat)).flatten).1
      ∧ (feedChunks initByteBufState
            [[100, 97, 116, 97, 58, 32, 195], [169, 10]]).2 =
          (feedChunk initByteBufState
            ([[100, 97, 116, 97, 58, 32, 195], [169, 10]] :
              List (List Nat)).flatten).2) :=
  ⟨by decide,
   c2_chunk_invariance ⟨false, [], fun _ a => Except.ok a⟩ (fun _ => none)
     [[100, 97, 116, 97, 58, 32, 195], [169, 10]] (by decide)⟩

end ChatGPTOAuth
